import Mathlib

/-!
A shallow embedding, in Lean 4, of the dispatcher/worker engine of the
transaction-broadcaster repository, together with theorems checking the
repository's natural-language specification against the code.

Source files embedded here (the repository keeps several revisions of some
files in one part file; the embedding follows the latest revision, the one
the specification describes):
  * internal/worker/worker.go       (src/unnamed/part_011, last revision)
  * internal/worker/errors.go       (revision with reason and code)
  * internal/node/errors.go         (revision with TxNotFoundError)
  * internal/node (client)          (src/unnamed/part_014)
  * internal/dispatcher/dispatcher.go (src/unnamed/part_006)
  * internal/repository/repository.go (first revision, with error_code)

Modelling conventions:
  * Go machine integers (int64 ids, int32 heights, int16 positions, uint16
    codes) are modelled as Lean Int/Nat; none of the verified properties
    exercises overflow and the embedded code performs no wrapping-sensitive
    arithmetic on them.
  * Durations and instants are all in milliseconds; the wall clock is frozen
    to a single value cfg.now for one worker pass (the code only compares
    differences of clock readings against configured TTLs).
  * Store and node calls are deterministic against an explicit environment:
    each kind of node call consumes the head of its own scripted response
    list (an exhausted script behaves as an unreachable node, which the Go
    client maps to an internal error), and each store write consumes the head
    of a failure-injection script (exhausted script means the write succeeds).
  * The raw transaction payload is observed by the worker code only through
    json.Unmarshal into a struct with a single timestamp field, so the
    payload is modelled as that observation: either a decoded timestamp or
    a decode failure.
  * Go map iteration order is unspecified; maps that the code iterates
    (confirmedTxs, the availability result) are modelled as association
    lists iterated in list order, which realises one admissible execution.
-/

namespace Broadcaster

/-- Sequence states, repository.go: pending=0, processing=1, done=2, error=3. -/
inductive SeqState
  | pending
  | processing
  | done
  | error
  deriving DecidableEq, Repr

/-- Numeric wire encoding of a sequence state (repository.go State enum). -/
def SeqState.code : SeqState → Nat
  | .pending => 0
  | .processing => 1
  | .done => 2
  | .error => 3

/-- Transaction states, repository.go: pending=0, processing=1, validated=2,
unconfirmed=3, confirmed=4, error=5. -/
inductive TxState
  | pending
  | processing
  | validated
  | unconfirmed
  | confirmed
  | error
  deriving DecidableEq, Repr

/-- Numeric wire encoding of a transaction state (repository.go TransactionState enum). -/
def TxState.code : TxState → Nat
  | .pending => 0
  | .processing => 1
  | .validated => 2
  | .unconfirmed => 3
  | .confirmed => 4
  | .error => 5

/-- Node error, internal/node/errors.go (revision with node error codes):
a coarse code, the node's own numeric code where present, and a message.
Error() returns the message unchanged. -/
structure NodeErr where
  code : Nat
  nodeErrorCode : Nat
  message : String
  deriving DecidableEq, Repr

/-- node.BroadcastClientError. -/
def broadcastClientError : Nat := 0

/-- node.BroadcastServerError. -/
def broadcastServerError : Nat := 1

/-- node.GetTxStatusError. -/
def getTxStatusError : Nat := 2

/-- node.WaitForTxStatusTimeoutError. -/
def waitForTxStatusTimeoutError : Nat := 3

/-- node.TxNotFoundError. -/
def txNotFoundError : Nat := 4

/-- node.InternalError. -/
def internalError : Nat := 999

/-- node.NewError: the node error code defaults to zero. -/
def NodeErr.mkSimple (code : Nat) (message : String) : NodeErr :=
  { code := code, nodeErrorCode := 0, message := message }

/-- Worker error taxonomy, internal/worker/errors.go (revision with reason
and code): Recoverable carries a reason, NonRecoverable a reason and a
numeric code, Fatal a reason. -/
inductive WErr
  | recoverable (reason : String)
  | nonRecoverable (reason : String) (code : Nat)
  | fatal (reason : String)
  deriving DecidableEq, Repr

/-- Result of one worker pass: nil, one of the three error variants, or
fuel exhaustion of the embedding (standing for an execution that has not
returned yet). -/
inductive WRes
  | ok
  | err (e : WErr)
  | outOfFuel
  deriving DecidableEq, Repr

/-! ### The two regular expressions of worker.go

`transactionTimestampErrorRE  = "Transaction timestamp \d+ is more than \d+ms"`
`transactionDuplicateErrorRE  = "State check failed. Reason: Transaction (\w+) is already in the state on a height of \d+"`

Both are used unanchored (MatchString / FindStringSubmatch), so a match may
start at any position; the leftmost matching position wins.  In both
patterns every `\d+`/`\w+` is immediately followed by a character outside
its class (a space or the letter m after a digit run), so the greedy
maximal munch below is equivalent to the backtracking search a regex engine
performs.  Go's `\w` is `[0-9A-Za-z_]` and `.` matches any character except
newline. -/

/-- Go regexp word-class character: `[0-9A-Za-z_]`. -/
def goIsWordChar (c : Char) : Bool := c.isAlphanum || c = '_'

/-- Match a literal prefix, returning the remainder on success. -/
def dropLit : List Char → List Char → Option (List Char)
  | [], s => some s
  | _ :: _, [] => none
  | p :: ps, c :: cs => if c = p then dropLit ps cs else none

/-- Match `Transaction timestamp \d+ is more than \d+ms` at the start of `s`. -/
def timestampMatchAt (s : List Char) : Bool :=
  match dropLit "Transaction timestamp ".toList s with
  | none => false
  | some s1 =>
    if (s1.takeWhile Char.isDigit).isEmpty then false else
    match dropLit " is more than ".toList (s1.dropWhile Char.isDigit) with
    | none => false
    | some s2 =>
      if (s2.takeWhile Char.isDigit).isEmpty then false else
      (dropLit "ms".toList (s2.dropWhile Char.isDigit)).isSome

/-- Try a positional matcher at every position of the input, leftmost first
(MatchString semantics). -/
def scanPositions (f : List Char → Bool) : List Char → Bool
  | [] => f []
  | c :: cs => f (c :: cs) || scanPositions f cs

/-- `transactionTimestampErrorRE.MatchString` of worker.go. -/
def transactionTimestampErrorMatch (s : String) : Bool :=
  scanPositions timestampMatchAt s.toList

/-- Match the duplicate pattern at the start of `s`, returning the capture
group (the transaction id) on success. -/
def duplicateCaptureAt (s : List Char) : Option (List Char) :=
  match dropLit "State check failed".toList s with
  | none => none
  | some s1 =>
    match s1 with
    | [] => none
    | c :: s2 =>
      if c = '\n' then none else
      match dropLit " Reason: Transaction ".toList s2 with
      | none => none
      | some s3 =>
        let w := s3.takeWhile goIsWordChar
        if w.isEmpty then none else
        match dropLit " is already in the state on a height of ".toList (s3.dropWhile goIsWordChar) with
        | none => none
        | some s4 =>
          if (s4.takeWhile Char.isDigit).isEmpty then none else some w

/-- Try a positional capturing matcher at every position, leftmost first. -/
def scanPositionsCapture (f : List Char → Option (List Char)) : List Char → Option (List Char)
  | [] => f []
  | c :: cs =>
    match f (c :: cs) with
    | some r => some r
    | none => scanPositionsCapture f cs

/-- `transactionDuplicateErrorRE.FindStringSubmatch` of worker.go, reduced to
the information the worker uses: the first capture group of the leftmost
match, or none when there is no match. -/
def transactionDuplicateErrorCapture (s : String) : Option String :=
  (scanPositionsCapture duplicateCaptureAt s.toList).map fun w => String.mk w

example : transactionTimestampErrorMatch "Transaction timestamp 12345 is more than 7200000ms" = true := by decide
example : transactionTimestampErrorMatch "some other error" = false := by decide
example : transactionDuplicateErrorCapture
    "State check failed. Reason: Transaction ABC is already in the state on a height of 500" = some "ABC" := by decide
example : transactionDuplicateErrorCapture "boom" = none := by decide

/-! ### Store data model (repository.go, first revision) -/

/-- The raw transaction payload, observed through json.Unmarshal into
worker.go's txWithTimestamp: either the decoded timestamp field (ms) or a
decode failure. -/
structure TxBody where
  timestampDecode : Option Int
  deriving DecidableEq, Repr

/-- One sequences_txs row (repository.SequenceTx). -/
structure TxRow where
  id : String
  seqId : Int
  state : TxState
  height : Int
  errorMessage : String
  pos : Int
  tx : TxBody
  updatedAt : Int
  deriving DecidableEq, Repr

/-- One sequences row (state, error fields). -/
structure SeqRow where
  id : Int
  state : SeqState
  errorMessage : String
  errorCode : Nat
  deriving DecidableEq, Repr

/-- The durable store: the sequences and sequences_txs tables. -/
structure Store where
  seqs : List SeqRow
  txs : List TxRow
  deriving DecidableEq, Repr

/-- A store write, one per repository.go update statement the worker and
dispatcher issue. -/
inductive StoreOp
  | setTxState (seqId pos : Int) (state : TxState)
  | setTxConfirmedState (seqId pos h : Int)
  | setTxErrorMessage (seqId pos : Int) (msg : String)
  | resetTxErrorMessage (seqId pos : Int)
  | setTxID (seqId pos : Int) (txId : String)
  | setTxsStateAfter (seqId : Int) (txId : String) (state : TxState)
  | setSeqState (seqId : Int) (state : SeqState)
  | setSeqErrorState (seqId : Int) (msg : String) (code : Nat)
  deriving DecidableEq, Repr

/-- Effect of a store write on the tables, mirroring the SQL of
repository.go.  SetSequenceTxsStateAfter updates every row of the sequence
whose position is at least the position of the row holding the given tx_id
(no row with that tx_id means the subquery is empty and nothing updates);
ResetSequenceTxErrorMessage writes NULL, which Go reads back as "". -/
def applyStoreOp (st : Store) (op : StoreOp) : Store :=
  match op with
  | .setTxState seqId pos s =>
    { st with txs := st.txs.map fun r =>
        if r.seqId = seqId ∧ r.pos = pos then { r with state := s } else r }
  | .setTxConfirmedState seqId pos h =>
    { st with txs := st.txs.map fun r =>
        if r.seqId = seqId ∧ r.pos = pos then { r with state := TxState.confirmed, height := h } else r }
  | .setTxErrorMessage seqId pos msg =>
    { st with txs := st.txs.map fun r =>
        if r.seqId = seqId ∧ r.pos = pos then { r with errorMessage := msg } else r }
  | .resetTxErrorMessage seqId pos =>
    { st with txs := st.txs.map fun r =>
        if r.seqId = seqId ∧ r.pos = pos then { r with errorMessage := "" } else r }
  | .setTxID seqId pos txId =>
    { st with txs := st.txs.map fun r =>
        if r.seqId = seqId ∧ r.pos = pos then { r with id := txId } else r }
  | .setTxsStateAfter seqId txId s =>
    match st.txs.find? fun r => r.seqId == seqId && r.id == txId with
    | none => st
    | some r0 =>
      { st with txs := st.txs.map fun r =>
          if r.seqId = seqId ∧ r0.pos ≤ r.pos then { r with state := s } else r }
  | .setSeqState seqId s =>
    { st with seqs := st.seqs.map fun r => if r.id = seqId then { r with state := s } else r }
  | .setSeqErrorState seqId msg code =>
    { st with seqs := st.seqs.map fun r =>
        if r.id = seqId then { r with state := SeqState.error, errorMessage := msg, errorCode := code } else r }

/-- Ordered insertion by position, for the ORDER BY of GetSequenceTxsByID. -/
def insertByPos (r : TxRow) : List TxRow → List TxRow
  | [] => [r]
  | x :: xs => if r.pos ≤ x.pos then r :: x :: xs else x :: insertByPos r xs

/-- Sort rows by ascending position. -/
def sortByPos : List TxRow → List TxRow
  | [] => []
  | x :: xs => insertByPos x (sortByPos xs)

/-- repository.GetSequenceTxsByID: the sequence's rows ordered by
position_in_sequence ascending. -/
def getSequenceTxsByID (st : Store) (seqId : Int) : List TxRow :=
  sortByPos (st.txs.filter fun r => r.seqId == seqId)

/-- The Sequence payload of repository.GetSequenceByID. -/
structure SequenceDto where
  id : Int
  broadcastedCount : Nat
  totalCount : Nat
  state : SeqState
  errorMessage : String
  errorCode : Nat
  deriving DecidableEq, Repr

/-- repository.GetSequenceByID: none when no sequences row has the id
(pg.ErrNoRows maps to a nil, nil return); otherwise the row together with
broadcasted_count, the count of the sequence's transactions in state
confirmed, and total_count, the count of all its transactions. -/
def getSequenceByID (st : Store) (seqId : Int) : Option SequenceDto :=
  match st.seqs.find? fun r => r.id == seqId with
  | none => none
  | some s =>
    some { id := seqId
           broadcastedCount :=
             (st.txs.filter fun r => r.seqId == seqId && r.state == TxState.confirmed).length
           totalCount := (st.txs.filter fun r => r.seqId == seqId).length
           state := s.state
           errorMessage := s.errorMessage
           errorCode := s.errorCode }

/-! ### Execution environment of one worker pass -/

/-- Observable events of a worker pass, newest first: every store write
(with its success flag), every height value successfully read from
GetCurrentHeight, and the moment Run finishes its positional loop and
computes the quiescence target from the heights of its confirmed map. -/
inductive Event
  | store (op : StoreOp) (ok : Bool)
  | height (h : Int)
  | quiescenceStart (hs : List Int)
  deriving DecidableEq, Repr

/-- Environment of a worker pass: the store, a failure-injection script for
store writes (head consumed per write, true means the write fails, an
exhausted script means writes succeed), one scripted response list per kind
of node call (an exhausted list behaves as an unreachable node), and the
event trace. -/
structure Env where
  store : Store
  storeFail : List Bool
  validateResps : List (Except NodeErr (Bool × String))
  broadcastResps : List (Except NodeErr String)
  waitStatusResps : List (Except NodeErr Int)
  heightResps : List (Except NodeErr Int)
  waitNextHeightResps : List (Except NodeErr Unit)
  availResps : List (Except NodeErr (List (String × Bool)))
  trace : List Event
  deriving Repr

/-- Append an event (the trace is newest first). -/
def pushEvent (env : Env) (e : Event) : Env := { env with trace := e :: env.trace }

/-- The message a failed store write carries (the worker wraps the store
error's text into a Fatal error; the text itself is opaque here). -/
def storeFailMsg : String := "store error"

/-- Perform one store write: consume the failure script and either apply the
update or report failure. -/
def storeWrite (env : Env) (op : StoreOp) : Bool × Env :=
  match env.storeFail with
  | [] =>
    (true, { env with store := applyStoreOp env.store op,
                      trace := Event.store op true :: env.trace })
  | b :: rest =>
    if b then
      (false, { env with storeFail := rest, trace := Event.store op false :: env.trace })
    else
      (true, { env with store := applyStoreOp env.store op, storeFail := rest,
                        trace := Event.store op true :: env.trace })

/-- Node error used when a scripted response list is exhausted: the Go
client maps any transport failure to an internal node error. -/
def scriptErr : NodeErr := NodeErr.mkSimple internalError "node unreachable"

/-- Consume one ValidateTx response. -/
def takeValidate (env : Env) : Except NodeErr (Bool × String) × Env :=
  match env.validateResps with
  | [] => (.error scriptErr, env)
  | r :: rest => (r, { env with validateResps := rest })

/-- Consume one BroadcastTx response. -/
def takeBroadcast (env : Env) : Except NodeErr String × Env :=
  match env.broadcastResps with
  | [] => (.error scriptErr, env)
  | r :: rest => (r, { env with broadcastResps := rest })

/-- Consume one WaitForTxStatus response. -/
def takeWaitStatus (env : Env) : Except NodeErr Int × Env :=
  match env.waitStatusResps with
  | [] => (.error scriptErr, env)
  | r :: rest => (r, { env with waitStatusResps := rest })

/-- Consume one GetCurrentHeight response, recording the observed height. -/
def takeHeight (env : Env) : Except NodeErr Int × Env :=
  match env.heightResps with
  | [] => (.error scriptErr, env)
  | .error e :: rest => (.error e, { env with heightResps := rest })
  | .ok h :: rest =>
    (.ok h, { env with heightResps := rest, trace := Event.height h :: env.trace })

/-- Consume one WaitForNextHeight response (the worker treats the call as an
opaque node interaction). -/
def takeWaitNextHeight (env : Env) : Except NodeErr Unit × Env :=
  match env.waitNextHeightResps with
  | [] => (.error scriptErr, env)
  | r :: rest => (r, { env with waitNextHeightResps := rest })

/-- Consume one GetTxsAvailability response: the availability mapping as an
association list in one admissible Go map iteration order. -/
def takeAvail (env : Env) : Except NodeErr (List (String × Bool)) × Env :=
  match env.availResps with
  | [] => (.error scriptErr, env)
  | r :: rest => (r, { env with availResps := rest })

/-! ### Worker (internal/worker/worker.go, last revision) -/

/-- Worker configuration: the frozen wall clock and the duration parameters
(milliseconds), as handed to worker.New. -/
structure WCfg where
  now : Int
  txProcessingTTL : Int
  heightsAfterLastTx : Int
  txOutdateTime : Int
  deriving Repr

/-- Message of a json.Unmarshal failure (its exact text is opaque to the
worker, which only forwards err.Error()). -/
def jsonDecodeErrMsg : String := "invalid json"

/-- worker.isTxOutdated: decode the payload's timestamp field; a decode
failure is an error, otherwise the transaction is outdated when now minus
its timestamp is at least txOutdateTime. -/
def isTxOutdated (cfg : WCfg) (tx : TxBody) : Except String Bool :=
  match tx.timestampDecode with
  | none => .error jsonDecodeErrMsg
  | some ts => .ok (decide (cfg.now - ts ≥ cfg.txOutdateTime))

/-- The recoverable message of worker.checkTxsAvailability when a confirmed
transaction was pulled out. -/
def pulledOutMsg : String :=
  "error occured while waiting for the Ns block after last tx: one of tx was pulled out from the blockchain"

/-- First transaction id reported unavailable, in iteration order. -/
def findUnavailable : List (String × Bool) → Option String
  | [] => none
  | (txId, isAvailable) :: rest => if isAvailable then findUnavailable rest else some txId

/-- worker.checkTxsAvailability: fetch availability of the confirmed ids; a
node error is Recoverable; the first id reported unavailable triggers
SetSequenceTxsStateAfter(seqID, that id, pending) (a failed write is Fatal)
followed by a Recoverable return; otherwise nil.  The response is scripted,
so the request ids only witness what the code sends. -/
def checkTxsAvailability (seqID : Int) (confirmedTxIDs : List String) (env : Env) : WRes × Env :=
  let _ := confirmedTxIDs
  match takeAvail env with
  | (.error e, env1) => (.err (.recoverable e.message), env1)
  | (.ok availability, env1) =>
    match findUnavailable availability with
    | none => (.ok, env1)
    | some txId =>
      match storeWrite env1 (.setTxsStateAfter seqID txId .pending) with
      | (false, env2) => (.err (.fatal storeFailMsg), env2)
      | (true, env2) => (.err (.recoverable pulledOutMsg), env2)

/-- worker.validateTx, last revision: ValidateTx errors are Recoverable; on
an invalid verdict, a duplicate-pattern message is success; a malformed
payload (decode failure in isTxOutdated) is NonRecoverable with code 0; the
verdict's message is persisted only when the row has none yet; when neither
the node-reported timestamp pattern nor the local outdated check holds, the
worker waits one height and retries validation; otherwise the row is set to
state error and the first-persisted message returns as NonRecoverable with
code 0.  A valid verdict resets the row's error message and succeeds. -/
def validateTx (cfg : WCfg) (tx : TxRow) (env : Env) : Nat → WRes × TxRow × Env
  | 0 => (.outOfFuel, tx, env)
  | fuel + 1 =>
    match takeValidate env with
    | (.error e, env1) => (.err (.recoverable e.message), tx, env1)
    | (.ok (isValid, errMsg), env1) =>
      if isValid then
        match storeWrite env1 (.resetTxErrorMessage tx.seqId tx.pos) with
        | (false, env2) => (.err (.fatal storeFailMsg), tx, env2)
        | (true, env2) => (.ok, { tx with errorMessage := "" }, env2)
      else
        match transactionDuplicateErrorCapture errMsg with
        | some _ => (.ok, tx, env1)
        | none =>
          let isTimestampError := transactionTimestampErrorMatch errMsg
          match isTxOutdated cfg tx.tx with
          | .error e => (.err (.nonRecoverable e 0), tx, env1)
          | .ok isOutdated =>
            if tx.errorMessage = "" then
              match storeWrite env1 (.setTxErrorMessage tx.seqId tx.pos errMsg) with
              | (false, env2) => (.err (.fatal storeFailMsg), tx, env2)
              | (true, env2) =>
                let tx1 : TxRow := { tx with errorMessage := errMsg }
                if !isTimestampError && !isOutdated then
                  match takeWaitNextHeight env2 with
                  | (.error e, env3) => (.err (.recoverable e.message), tx1, env3)
                  | (.ok _, env3) => validateTx cfg tx1 env3 fuel
                else
                  match storeWrite env2 (.setTxState tx.seqId tx.pos .error) with
                  | (false, env3) => (.err (.fatal storeFailMsg), tx1, env3)
                  | (true, env3) =>
                    let errorMessage := if tx1.errorMessage ≠ "" then tx1.errorMessage else errMsg
                    (.err (.nonRecoverable errorMessage 0), tx1, env3)
            else
              if !isTimestampError && !isOutdated then
                match takeWaitNextHeight env1 with
                | (.error e, env3) => (.err (.recoverable e.message), tx, env3)
                | (.ok _, env3) => validateTx cfg tx env3 fuel
              else
                match storeWrite env1 (.setTxState tx.seqId tx.pos .error) with
                | (false, env3) => (.err (.fatal storeFailMsg), tx, env3)
                | (true, env3) =>
                  let errorMessage := if tx.errorMessage ≠ "" then tx.errorMessage else errMsg
                  (.err (.nonRecoverable errorMessage 0), tx, env3)

/-- Shared tail of worker.broadcastTx once a transaction id is in hand
(freshly broadcast or recovered from the duplicate pattern): reset the
row's error message, persist the id onto the row, and succeed; a failed
write is Fatal. -/
def broadcastTxPersist (tx : TxRow) (txID : String) (env : Env) : WRes × TxRow × Env :=
  match storeWrite env (.resetTxErrorMessage tx.seqId tx.pos) with
  | (false, env1) => (.err (.fatal storeFailMsg), tx, env1)
  | (true, env1) =>
    match storeWrite env1 (.setTxID tx.seqId tx.pos txID) with
    | (false, env2) => (.err (.fatal storeFailMsg), { tx with errorMessage := "" }, env2)
    | (true, env2) => (.ok, { tx with errorMessage := "", id := txID }, env2)

/-- worker.broadcastTx, last revision: on a node error whose text matches
the duplicate pattern, the captured id is used as if freshly broadcast;
otherwise BroadcastClientError is NonRecoverable carrying the node's
numeric code, and any other node error is Recoverable. -/
def broadcastTx (tx : TxRow) (env : Env) : WRes × TxRow × Env :=
  match takeBroadcast env with
  | (.ok txID, env1) => broadcastTxPersist tx txID env1
  | (.error e, env1) =>
    match transactionDuplicateErrorCapture e.message with
    | some captured => broadcastTxPersist tx captured env1
    | none =>
      if e.code = broadcastClientError then
        (.err (.nonRecoverable e.message e.nodeErrorCode), tx, env1)
      else
        (.err (.recoverable e.message), tx, env1)

/-- worker.waitForTxConfirmation: delegate to WaitForTxStatus(txID, confirmed). -/
def waitForTxConfirmation (txID : String) (env : Env) : Except NodeErr Int × Env :=
  let _ := txID
  takeWaitStatus env

/-- Stage of worker.processTx entered at state confirmed: success. -/
def processTxFromConfirmed (tx : TxRow) (env : Env) : WRes × TxRow × Env :=
  (.ok, tx, env)

/-- Stage of worker.processTx entered at state unconfirmed: wait for
confirmation; a TxNotFoundError additionally resets the row to pending
(Fatal if that write fails) and any node error surfaces as Recoverable;
on a height, persist the confirmed state and proceed. -/
def processTxFromUnconfirmed (tx : TxRow) (env : Env) : WRes × TxRow × Env :=
  match waitForTxConfirmation tx.id env with
  | (.error e, env1) =>
    if e.code = txNotFoundError then
      match storeWrite env1 (.setTxState tx.seqId tx.pos .pending) with
      | (false, env2) => (.err (.fatal storeFailMsg), tx, env2)
      | (true, env2) => (.err (.recoverable e.message), tx, env2)
    else
      (.err (.recoverable e.message), tx, env1)
  | (.ok height, env1) =>
    match storeWrite env1 (.setTxConfirmedState tx.seqId tx.pos height) with
    | (false, env2) => (.err (.fatal storeFailMsg), tx, env2)
    | (true, env2) =>
      processTxFromConfirmed { tx with state := TxState.confirmed, height := height } env2

/-- Stage of worker.processTx entered at state validated: broadcast, persist
state unconfirmed, and proceed. -/
def processTxFromValidated (tx : TxRow) (env : Env) : WRes × TxRow × Env :=
  match broadcastTx tx env with
  | (.ok, tx1, env1) =>
    match storeWrite env1 (.setTxState tx.seqId tx.pos .unconfirmed) with
    | (false, env2) => (.err (.fatal storeFailMsg), tx1, env2)
    | (true, env2) => processTxFromUnconfirmed { tx1 with state := TxState.unconfirmed } env2
  | res => res

/-- Stage of worker.processTx entered at state processing: validate, persist
state validated, and proceed. -/
def processTxFromProcessing (cfg : WCfg) (tx : TxRow) (env : Env) (fuel : Nat) : WRes × TxRow × Env :=
  match validateTx cfg tx env fuel with
  | (.ok, tx1, env1) =>
    match storeWrite env1 (.setTxState tx.seqId tx.pos .validated) with
    | (false, env2) => (.err (.fatal storeFailMsg), tx1, env2)
    | (true, env2) => processTxFromValidated { tx1 with state := TxState.validated } env2
  | res => res

/-- Stage of worker.processTx entered at state pending: persist state
processing and proceed. -/
def processTxFromPending (cfg : WCfg) (tx : TxRow) (env : Env) (fuel : Nat) : WRes × TxRow × Env :=
  match storeWrite env (.setTxState tx.seqId tx.pos .processing) with
  | (false, env1) => (.err (.fatal storeFailMsg), tx, env1)
  | (true, env1) => processTxFromProcessing cfg { tx with state := TxState.processing } env1 fuel

/-- worker.processTx: the resumable fallthrough cascade, entering at the
row's state (the default arm of the Go switch returns nil). -/
def processTx (cfg : WCfg) (tx : TxRow) (env : Env) (fuel : Nat) : WRes × TxRow × Env :=
  match tx.state with
  | .pending => processTxFromPending cfg tx env fuel
  | .processing => processTxFromProcessing cfg tx env fuel
  | .validated => processTxFromValidated tx env
  | .unconfirmed => processTxFromUnconfirmed tx env
  | .confirmed => processTxFromConfirmed tx env
  | .error => (.ok, tx, env)

/-- The recoverable message of worker.Run when a processing row is within
its grace window. -/
def processingTTLMsg : String :=
  "error occured while processing tx: tx is under processing, processing TTL is not over"

/-- Go map insert keyed by transaction id (overwrite keeps the key's
place; iteration order of the model is first-insertion order, one
admissible Go map order). -/
def insertConfirmed (txId : String) (tx : TxRow) : List (String × TxRow) → List (String × TxRow)
  | [] => [(txId, tx)]
  | (k, v) :: rest =>
    if k = txId then (k, tx) :: rest else (k, v) :: insertConfirmed txId tx rest

/-- The positional loop of worker.Run, last revision: confirmed rows join
the confirmed map; before any other row, a nonempty confirmed map triggers
the reorg check; a processing row within txProcessingTTL is Recoverable;
pending, stale-processing, validated and unconfirmed rows run the cascade
(joining the confirmed map on success); an error row is NonRecoverable with
its stored message and code 0. -/
def runLoop (cfg : WCfg) (seqID : Int) :
    List TxRow → List (String × TxRow) → Env → Nat → WRes × List (String × TxRow) × Env
  | [], confirmedTxs, env, _ => (.ok, confirmedTxs, env)
  | tx :: rest, confirmedTxs, env, fuel =>
    if tx.state = TxState.confirmed then
      runLoop cfg seqID rest (insertConfirmed tx.id tx confirmedTxs) env fuel
    else
      match (if confirmedTxs.isEmpty then (.ok, env)
             else checkTxsAvailability seqID (confirmedTxs.map Prod.fst) env) with
      | (.err e, env1) => (.err e, confirmedTxs, env1)
      | (.outOfFuel, env1) => (.outOfFuel, confirmedTxs, env1)
      | (.ok, env1) =>
        match tx.state with
        | .processing =>
          if cfg.now - tx.updatedAt < cfg.txProcessingTTL then
            (.err (.recoverable processingTTLMsg), confirmedTxs, env1)
          else
            match processTx cfg tx env1 fuel with
            | (.ok, tx1, env2) =>
              runLoop cfg seqID rest (insertConfirmed tx1.id tx1 confirmedTxs) env2 fuel
            | (r, _, env2) => (r, confirmedTxs, env2)
        | .error => (.err (.nonRecoverable tx.errorMessage 0), confirmedTxs, env1)
        | .confirmed =>
          runLoop cfg seqID rest (insertConfirmed tx.id tx confirmedTxs) env1 fuel
        | _ =>
          match processTx cfg tx env1 fuel with
          | (.ok, tx1, env2) =>
            runLoop cfg seqID rest (insertConfirmed tx1.id tx1 confirmedTxs) env2 fuel
          | (r, _, env2) => (r, confirmedTxs, env2)

/-- The fold of worker.Run over the confirmed map: largest height, starting
from zero. -/
def listMax0 (hs : List Int) : Int :=
  hs.foldl (fun startHeight h => if startHeight < h then h else startHeight) 0

/-- Ticker loop of worker.waitForTargetHeight: on every tick refresh the
sequence lease (SetSequenceStateByID processing, Fatal on failure), run the
reorg check, then read the height; reaching the target succeeds. -/
def waitForTargetHeightLoop (targetHeight seqID : Int) (confirmedTxIDs : List String) :
    Env → Nat → WRes × Env
  | env, 0 => (.outOfFuel, env)
  | env, fuel + 1 =>
    match storeWrite env (.setSeqState seqID .processing) with
    | (false, env1) => (.err (.fatal storeFailMsg), env1)
    | (true, env1) =>
      match checkTxsAvailability seqID confirmedTxIDs env1 with
      | (.ok, env2) =>
        match takeHeight env2 with
        | (.error e, env3) => (.err (.recoverable e.message), env3)
        | (.ok currentHeight, env3) =>
          if targetHeight ≤ currentHeight then (.ok, env3)
          else waitForTargetHeightLoop targetHeight seqID confirmedTxIDs env3 fuel
      | (r, env2) => (r, env2)

/-- worker.waitForTargetHeight: an initial height read (Recoverable on node
error) short-circuits when already at the target, else the ticker loop
runs. -/
def waitForTargetHeight (targetHeight seqID : Int) (confirmedTxIDs : List String)
    (env : Env) (fuel : Nat) : WRes × Env :=
  match takeHeight env with
  | (.error e, env1) => (.err (.recoverable e.message), env1)
  | (.ok currentHeight, env1) =>
    if targetHeight ≤ currentHeight then (.ok, env1)
    else waitForTargetHeightLoop targetHeight seqID confirmedTxIDs env1 fuel

/-- worker.Run, last revision: load the rows in positional order, run the
positional loop, then compute targetHeight as the largest confirmed height
plus heightsAfterLastTx and run the quiescence wait.  The quiescenceStart
event records the heights of the confirmed map at that moment. -/
def runWorker (cfg : WCfg) (seqID : Int) (env : Env) (fuel : Nat) : WRes × Env :=
  let txs := getSequenceTxsByID env.store seqID
  match runLoop cfg seqID txs [] env fuel with
  | (.ok, confirmedTxs, env1) =>
    let hs := confirmedTxs.map fun p => p.2.height
    let confirmedTxIDs := confirmedTxs.map Prod.fst
    let targetHeight := listMax0 hs + cfg.heightsAfterLastTx
    waitForTargetHeight targetHeight seqID confirmedTxIDs
      (pushEvent env1 (.quiescenceStart hs)) fuel
  | (r, _, env1) => (r, env1)

/-! ### Dispatcher outcome handling (internal/dispatcher/dispatcher.go RunLoop) -/

/-- What RunLoop does next after handling a worker outcome: keep looping
(recording whether it respawned a worker for the sequence), exit because a
store write failed, or exit carrying a worker Fatal error. -/
inductive DispatchResult
  | continueLoop (respawned : Bool)
  | exitStoreError
  | exitFatal (reason : String)
  deriving DecidableEq, Repr

/-- The two outcome branches of dispatcher.RunLoop: a completion (nil
outcome, from completedSequenceChan) sets the sequence state to done; a
Recoverable error refreshes the lease (SetSequenceStateByID processing) and
respawns a worker for the same id; a NonRecoverable error persists
SetSequenceErrorStateByID with the error's reason and code; a Fatal error
makes RunLoop return with it.  Any failing store write also makes RunLoop
return. -/
def dispatchOutcome (seqID : Int) (outcome : Option WErr) (env : Env) : DispatchResult × Env :=
  match outcome with
  | some (.recoverable _) =>
    match storeWrite env (.setSeqState seqID .processing) with
    | (false, env1) => (.exitStoreError, env1)
    | (true, env1) => (.continueLoop true, env1)
  | some (.nonRecoverable reason code) =>
    match storeWrite env (.setSeqErrorState seqID reason code) with
    | (false, env1) => (.exitStoreError, env1)
    | (true, env1) => (.continueLoop false, env1)
  | some (.fatal reason) => (.exitFatal reason, env)
  | none =>
    match storeWrite env (.setSeqState seqID .done) with
    | (false, env1) => (.exitStoreError, env1)
    | (true, env1) => (.continueLoop false, env1)

/-! ### Node client (src/unnamed/part_014) -/

/-- Environment of the node client: the scripted GetCurrentHeight
responses (an exhausted script behaves as an unreachable node). -/
structure NodeEnv where
  heights : List (Except NodeErr Int)
  deriving Repr

/-- node.GetCurrentHeight: consume one scripted response. -/
def nodeGetCurrentHeight (env : NodeEnv) : Except NodeErr Int × NodeEnv :=
  match env.heights with
  | [] => (.error scriptErr, env)
  | r :: rest => (r, { env with heights := rest })

/-- Result of a node-client wait: success, a node error, or fuel
exhaustion of the embedding (an execution still polling). -/
inductive NodeWaitRes
  | ok
  | err (e : NodeErr)
  | outOfFuel
  deriving DecidableEq, Repr

/-- node.WaitForTargetHeight: poll GetCurrentHeight once per tick; a node
error is wrapped as InternalError; the wait finishes when the fetched
height strictly exceeds targetHeight. -/
def nodeWaitForTargetHeight (targetHeight : Int) : NodeEnv → Nat → NodeWaitRes × NodeEnv
  | env, 0 => (.outOfFuel, env)
  | env, fuel + 1 =>
    match nodeGetCurrentHeight env with
    | (.error e, env1) => (.err (NodeErr.mkSimple internalError e.message), env1)
    | (.ok newHeight, env1) =>
      if targetHeight < newHeight then (.ok, env1)
      else nodeWaitForTargetHeight targetHeight env1 fuel

/-- node.WaitForNextHeight: read the height at entry, then
WaitForTargetHeight(entry + 1). -/
def nodeWaitForNextHeight (env : NodeEnv) (fuel : Nat) : NodeWaitRes × NodeEnv :=
  match nodeGetCurrentHeight env with
  | (.error e, env1) => (.err e, env1)
  | (.ok currentHeight, env1) => nodeWaitForTargetHeight (currentHeight + 1) env1 fuel

/-- Modelled from the spec, for comparison with nodeWaitForNextHeight: poll
GetCurrentHeight until it strictly exceeds the value observed at entry. -/
def specPollUntilExceeds (entryHeight : Int) : NodeEnv → Nat → NodeWaitRes × NodeEnv
  | env, 0 => (.outOfFuel, env)
  | env, fuel + 1 =>
    match nodeGetCurrentHeight env with
    | (.error e, env1) => (.err e, env1)
    | (.ok h, env1) =>
      if entryHeight < h then (.ok, env1)
      else specPollUntilExceeds entryHeight env1 fuel

/-- Modelled from the spec: WaitForNextHeight as the spec words it, waiting
for exactly one height advance past the entry value. -/
def specWaitForNextHeight (env : NodeEnv) (fuel : Nat) : NodeWaitRes × NodeEnv :=
  match nodeGetCurrentHeight env with
  | (.error e, env1) => (.err e, env1)
  | (.ok entryHeight, env1) => specPollUntilExceeds entryHeight env1 fuel

/-- node.ValidationResult. -/
structure ValidationResult where
  isValid : Bool
  errorMessage : String
  deriving DecidableEq, Repr

/-- An HTTP response to the debug-validate request, observed through the
two json decodings the client attempts: the body as a validateTxResponse
(valid flag and error text) and the body as an errorResponse (message and
the node's numeric code); none models a decode failure. -/
structure HttpResp where
  status : Nat
  validateDecode : Option (Bool × String)
  errorDecode : Option (String × Nat)
  deriving DecidableEq, Repr

/-- Outcome of the HTTP round trip itself. -/
inductive HttpResult
  | transportError (msg : String)
  | resp (r : HttpResp)
  deriving DecidableEq, Repr

/-- node.ValidateTx, from part_014: a transport failure is an internal node
error; a 200 response decodes as the validity verdict (decode failure is an
internal error); any other status decodes the body as an errorResponse and
returns an invalid verdict carrying the node's message (only a decode
failure becomes an internal node error). -/
def nodeValidateTx : HttpResult → Except NodeErr ValidationResult
  | .transportError m => .error (NodeErr.mkSimple internalError m)
  | .resp r =>
    if r.status = 200 then
      match r.validateDecode with
      | none => .error (NodeErr.mkSimple internalError jsonDecodeErrMsg)
      | some (valid, errMsg) => .ok { isValid := valid, errorMessage := errMsg }
    else
      match r.errorDecode with
      | none => .error (NodeErr.mkSimple internalError jsonDecodeErrMsg)
      | some (message, _) => .ok { isValid := false, errorMessage := message }

/-! ### Trace observations -/

/-- The height most recently observed by a worker (the trace is newest
first). -/
def lastObservedHeight : List Event → Option Int
  | [] => none
  | Event.height h :: _ => some h
  | _ :: rest => lastObservedHeight rest

/-- A store write of terminal or foreign sequence-level state: any
SetSequenceStateByID with a state other than processing, and any
SetSequenceErrorStateByID. -/
def isSeqTerminalWrite : StoreOp → Bool
  | .setSeqState _ s => s != SeqState.processing
  | .setSeqErrorState _ _ _ => true
  | _ => false

/-- Trace discipline of the worker: no terminal sequence-level write. -/
def traceSeqOK (t : List Event) : Bool :=
  t.all fun e =>
    match e with
    | .store op _ => !isSeqTerminalWrite op
    | _ => true

/-- No store write in the trace has failed. -/
def traceNoFail (t : List Event) : Bool :=
  t.all fun e =>
    match e with
    | .store _ ok => ok
    | _ => true

/-- A worker result that is not a Fatal error. -/
def notFatal : WRes → Bool
  | .err (.fatal _) => false
  | _ => true

/-! ### Helper lemmas about traces and primitives -/

@[simp]
theorem traceSeqOK_nil : traceSeqOK [] = true := rfl

@[simp]
theorem traceSeqOK_store_cons (op : StoreOp) (b : Bool) (t : List Event) :
    traceSeqOK (Event.store op b :: t) = (!isSeqTerminalWrite op && traceSeqOK t) := by
  simp [traceSeqOK]

@[simp]
theorem traceSeqOK_height_cons (h : Int) (t : List Event) :
    traceSeqOK (Event.height h :: t) = traceSeqOK t := by
  simp [traceSeqOK]

@[simp]
theorem traceSeqOK_quiescence_cons (hs : List Int) (t : List Event) :
    traceSeqOK (Event.quiescenceStart hs :: t) = traceSeqOK t := by
  simp [traceSeqOK]

@[simp]
theorem traceNoFail_nil : traceNoFail [] = true := rfl

@[simp]
theorem traceNoFail_store_cons (op : StoreOp) (b : Bool) (t : List Event) :
    traceNoFail (Event.store op b :: t) = (b && traceNoFail t) := by
  simp [traceNoFail]

@[simp]
theorem traceNoFail_height_cons (h : Int) (t : List Event) :
    traceNoFail (Event.height h :: t) = traceNoFail t := by
  simp [traceNoFail]

@[simp]
theorem traceNoFail_quiescence_cons (hs : List Int) (t : List Event) :
    traceNoFail (Event.quiescenceStart hs :: t) = traceNoFail t := by
  simp [traceNoFail]

theorem takeValidate_spec (env : Env) (r : Except NodeErr (Bool × String)) (env1 : Env) :
    takeValidate env = (r, env1) → env1.trace = env.trace ∧ env1.store = env.store ∧
      env1.storeFail = env.storeFail := by
  unfold takeValidate
  cases env.validateResps <;> (intro h; cases h; simp)

theorem takeBroadcast_spec (env : Env) (r : Except NodeErr String) (env1 : Env) :
    takeBroadcast env = (r, env1) → env1.trace = env.trace ∧ env1.store = env.store ∧
      env1.storeFail = env.storeFail := by
  unfold takeBroadcast
  cases env.broadcastResps <;> (intro h; cases h; simp)

theorem takeWaitStatus_spec (env : Env) (r : Except NodeErr Int) (env1 : Env) :
    takeWaitStatus env = (r, env1) → env1.trace = env.trace ∧ env1.store = env.store ∧
      env1.storeFail = env.storeFail := by
  unfold takeWaitStatus
  cases env.waitStatusResps <;> (intro h; cases h; simp)

theorem takeWaitNextHeight_spec (env : Env) (r : Except NodeErr Unit) (env1 : Env) :
    takeWaitNextHeight env = (r, env1) → env1.trace = env.trace ∧ env1.store = env.store ∧
      env1.storeFail = env.storeFail := by
  unfold takeWaitNextHeight
  cases env.waitNextHeightResps <;> (intro h; cases h; simp)

theorem takeAvail_spec (env : Env) (r : Except NodeErr (List (String × Bool))) (env1 : Env) :
    takeAvail env = (r, env1) → env1.trace = env.trace ∧ env1.store = env.store ∧
      env1.storeFail = env.storeFail := by
  unfold takeAvail
  cases env.availResps <;> (intro h; cases h; simp)

theorem takeHeight_spec (env : Env) (r : Except NodeErr Int) (env1 : Env) :
    takeHeight env = (r, env1) →
      (env1.trace = env.trace ∨ ∃ h, r = .ok h ∧ env1.trace = Event.height h :: env.trace) ∧
      env1.store = env.store ∧ env1.storeFail = env.storeFail := by
  unfold takeHeight
  match hr : env.heightResps with
  | [] => intro h; cases h; simp
  | .error e :: rest => intro h; cases h; simp
  | .ok hh :: rest => intro h; cases h; exact ⟨Or.inr ⟨hh, rfl, rfl⟩, rfl, rfl⟩

theorem storeWrite_spec (env : Env) (op : StoreOp) (b : Bool) (env1 : Env) :
    storeWrite env op = (b, env1) → env1.trace = Event.store op b :: env.trace := by
  unfold storeWrite
  match hf : env.storeFail with
  | [] => intro h; cases h; simp
  | c :: rest =>
    cases c with
    | true => intro h; cases h; simp
    | false => intro h; cases h; simp

theorem checkTxsAvailability_trace_inv (seqID : Int) (ids : List String) (env : Env)
    (r : WRes) (env' : Env) (h : checkTxsAvailability seqID ids env = (r, env')) :
    (traceSeqOK env.trace = true → traceSeqOK env'.trace = true) ∧
    (traceNoFail env.trace = true → notFatal r = true → traceNoFail env'.trace = true) := by
  unfold checkTxsAvailability at h
  split at h
  case _ e env1 heq =>
    cases h
    have ht := (takeAvail_spec env _ _ heq).1
    rw [ht]
    exact ⟨fun hs => hs, fun hf _ => hf⟩
  case _ avail env1 heq =>
    have ht := (takeAvail_spec env _ _ heq).1
    split at h
    · cases h
      rw [ht]
      exact ⟨fun hs => hs, fun hf _ => hf⟩
    case _ txId hfind =>
      split at h
      case _ env2 hw =>
        cases h
        have hw2 := storeWrite_spec _ _ _ _ hw
        rw [hw2, ht]
        refine ⟨fun hs => ?_, fun hf hnf => ?_⟩
        · simpa [isSeqTerminalWrite] using hs
        · simp [notFatal] at hnf
      case _ env2 hw =>
        cases h
        have hw2 := storeWrite_spec _ _ _ _ hw
        rw [hw2, ht]
        refine ⟨fun hs => ?_, fun hf _ => ?_⟩
        · simpa [isSeqTerminalWrite] using hs
        · simpa using hf

theorem broadcastTxPersist_trace_inv (tx : TxRow) (txID : String) (env : Env)
    (r : WRes) (tx' : TxRow) (env' : Env) (h : broadcastTxPersist tx txID env = (r, tx', env')) :
    (traceSeqOK env.trace = true → traceSeqOK env'.trace = true) ∧
    (traceNoFail env.trace = true → notFatal r = true → traceNoFail env'.trace = true) := by
  unfold broadcastTxPersist at h
  split at h
  case _ env1 hw1 =>
    cases h
    rw [storeWrite_spec _ _ _ _ hw1]
    refine ⟨fun hs => by simpa [isSeqTerminalWrite] using hs, fun hf hnf => by simp [notFatal] at hnf⟩
  case _ env1 hw1 =>
    split at h
    case _ env2 hw2 =>
      cases h
      rw [storeWrite_spec _ _ _ _ hw2, storeWrite_spec _ _ _ _ hw1]
      refine ⟨fun hs => by simpa [isSeqTerminalWrite] using hs, fun hf hnf => by simp [notFatal] at hnf⟩
    case _ env2 hw2 =>
      cases h
      rw [storeWrite_spec _ _ _ _ hw2, storeWrite_spec _ _ _ _ hw1]
      refine ⟨fun hs => by simpa [isSeqTerminalWrite] using hs, fun hf _ => by simpa using hf⟩

theorem broadcastTx_trace_inv (tx : TxRow) (env : Env)
    (r : WRes) (tx' : TxRow) (env' : Env) (h : broadcastTx tx env = (r, tx', env')) :
    (traceSeqOK env.trace = true → traceSeqOK env'.trace = true) ∧
    (traceNoFail env.trace = true → notFatal r = true → traceNoFail env'.trace = true) := by
  unfold broadcastTx at h
  split at h
  case _ txID env1 heq =>
    have ht := (takeBroadcast_spec env _ _ heq).1
    have := broadcastTxPersist_trace_inv _ _ _ _ _ _ h
    rw [ht] at this
    exact this
  case _ e env1 heq =>
    have ht := (takeBroadcast_spec env _ _ heq).1
    split at h
    case _ captured hcap =>
      have := broadcastTxPersist_trace_inv _ _ _ _ _ _ h
      rw [ht] at this
      exact this
    case _ hcap =>
      split at h <;> (cases h; rw [ht]; exact ⟨fun hs => hs, fun hf _ => hf⟩)

theorem validateTx_trace_inv (cfg : WCfg) (fuel : Nat) :
    ∀ (tx : TxRow) (env : Env) (r : WRes) (tx' : TxRow) (env' : Env),
      validateTx cfg tx env fuel = (r, tx', env') →
      (traceSeqOK env.trace = true → traceSeqOK env'.trace = true) ∧
      (traceNoFail env.trace = true → notFatal r = true → traceNoFail env'.trace = true) := by
  induction fuel with
  | zero =>
    intro tx env r tx' env' h
    cases h
    exact ⟨fun hs => hs, fun hf _ => hf⟩
  | succ n ih =>
    intro tx env r tx' env' h
    unfold validateTx at h
    split at h
    case _ e env1 heq =>
      cases h
      rw [(takeValidate_spec env _ _ heq).1]
      exact ⟨fun hs => hs, fun hf _ => hf⟩
    case _ isValid errMsg env1 heq =>
      have ht := (takeValidate_spec env _ _ heq).1
      split at h
      · -- valid verdict: reset the error message
        split at h
        case _ env2 hw =>
          cases h
          rw [storeWrite_spec _ _ _ _ hw, ht]
          refine ⟨fun hs => by simpa [isSeqTerminalWrite] using hs, fun hf hnf => by simp [notFatal] at hnf⟩
        case _ env2 hw =>
          cases h
          rw [storeWrite_spec _ _ _ _ hw, ht]
          refine ⟨fun hs => by simpa [isSeqTerminalWrite] using hs, fun hf _ => by simpa using hf⟩
      · -- invalid verdict
        split at h
        · -- duplicate pattern: success
          cases h
          rw [ht]
          exact ⟨fun hs => hs, fun hf _ => hf⟩
        · split at h
          · -- malformed payload
            cases h
            rw [ht]
            exact ⟨fun hs => hs, fun hf _ => hf⟩
          case _ isOutdated hout =>
            split at h
            · -- error message not yet set: persist it first
              split at h
              case _ env2 hw =>
                cases h
                rw [storeWrite_spec _ _ _ _ hw, ht]
                refine ⟨fun hs => by simpa [isSeqTerminalWrite] using hs,
                        fun hf hnf => by simp [notFatal] at hnf⟩
              case _ env2 hw =>
                have hw2 := storeWrite_spec _ _ _ _ hw
                cases hb : (!transactionTimestampErrorMatch errMsg && !isOutdated) with
                | true =>
                  simp only [hb, if_true] at h
                  split at h
                  case _ e env3 heq3 =>
                    cases h
                    rw [(takeWaitNextHeight_spec env2 _ _ heq3).1, hw2, ht]
                    refine ⟨fun hs => by simpa [isSeqTerminalWrite] using hs,
                            fun hf _ => by simpa using hf⟩
                  case _ u env3 heq3 =>
                    have hrec := ih _ _ _ _ _ h
                    rw [(takeWaitNextHeight_spec env2 _ _ heq3).1, hw2, ht] at hrec
                    refine ⟨fun hs => hrec.1 (by simpa [isSeqTerminalWrite] using hs),
                            fun hf hnf => hrec.2 (by simpa using hf) hnf⟩
                | false =>
                  simp only [hb, Bool.false_eq_true, if_false] at h
                  split at h
                  case _ env3 hw3 =>
                    cases h
                    rw [storeWrite_spec _ _ _ _ hw3, hw2, ht]
                    refine ⟨fun hs => by simpa [isSeqTerminalWrite] using hs,
                            fun hf hnf => by simp [notFatal] at hnf⟩
                  case _ env3 hw3 =>
                    cases h
                    rw [storeWrite_spec _ _ _ _ hw3, hw2, ht]
                    refine ⟨fun hs => by simpa [isSeqTerminalWrite] using hs,
                            fun hf _ => by simpa using hf⟩
            · -- error message already set
              cases hb : (!transactionTimestampErrorMatch errMsg && !isOutdated) with
              | true =>
                simp only [hb, if_true] at h
                split at h
                case _ e env3 heq3 =>
                  cases h
                  rw [(takeWaitNextHeight_spec env1 _ _ heq3).1, ht]
                  exact ⟨fun hs => hs, fun hf _ => hf⟩
                case _ u env3 heq3 =>
                  have hrec := ih _ _ _ _ _ h
                  rw [(takeWaitNextHeight_spec env1 _ _ heq3).1, ht] at hrec
                  exact hrec
              | false =>
                simp only [hb, Bool.false_eq_true, if_false] at h
                split at h
                case _ env3 hw3 =>
                  cases h
                  rw [storeWrite_spec _ _ _ _ hw3, ht]
                  refine ⟨fun hs => by simpa [isSeqTerminalWrite] using hs,
                          fun hf hnf => by simp [notFatal] at hnf⟩
                case _ env3 hw3 =>
                  cases h
                  rw [storeWrite_spec _ _ _ _ hw3, ht]
                  refine ⟨fun hs => by simpa [isSeqTerminalWrite] using hs,
                          fun hf _ => by simpa using hf⟩

theorem processTxFromUnconfirmed_trace_inv (tx : TxRow) (env : Env)
    (r : WRes) (tx' : TxRow) (env' : Env) (h : processTxFromUnconfirmed tx env = (r, tx', env')) :
    (traceSeqOK env.trace = true → traceSeqOK env'.trace = true) ∧
    (traceNoFail env.trace = true → notFatal r = true → traceNoFail env'.trace = true) := by
  unfold processTxFromUnconfirmed waitForTxConfirmation at h
  split at h
  case _ e env1 heq =>
    have ht := (takeWaitStatus_spec env _ _ heq).1
    split at h
    · split at h
      case _ env2 hw =>
        cases h
        rw [storeWrite_spec _ _ _ _ hw, ht]
        refine ⟨fun hs => by simpa [isSeqTerminalWrite] using hs,
                fun hf hnf => by simp [notFatal] at hnf⟩
      case _ env2 hw =>
        cases h
        rw [storeWrite_spec _ _ _ _ hw, ht]
        refine ⟨fun hs => by simpa [isSeqTerminalWrite] using hs, fun hf _ => by simpa using hf⟩
    · cases h
      rw [ht]
      exact ⟨fun hs => hs, fun hf _ => hf⟩
  case _ height env1 heq =>
    have ht := (takeWaitStatus_spec env _ _ heq).1
    split at h
    case _ env2 hw =>
      cases h
      rw [storeWrite_spec _ _ _ _ hw, ht]
      refine ⟨fun hs => by simpa [isSeqTerminalWrite] using hs,
              fun hf hnf => by simp [notFatal] at hnf⟩
    case _ env2 hw =>
      cases h
      rw [storeWrite_spec _ _ _ _ hw, ht]
      refine ⟨fun hs => by simpa [isSeqTerminalWrite] using hs, fun hf _ => by simpa using hf⟩

theorem processTxFromValidated_trace_inv (tx : TxRow) (env : Env)
    (r : WRes) (tx' : TxRow) (env' : Env) (h : processTxFromValidated tx env = (r, tx', env')) :
    (traceSeqOK env.trace = true → traceSeqOK env'.trace = true) ∧
    (traceNoFail env.trace = true → notFatal r = true → traceNoFail env'.trace = true) := by
  unfold processTxFromValidated at h
  split at h
  case _ tx1 env1 heq =>
    have h1 := broadcastTx_trace_inv _ _ _ _ _ heq
    split at h
    case _ env2 hw =>
      cases h
      rw [storeWrite_spec _ _ _ _ hw]
      refine ⟨fun hs => by simpa [isSeqTerminalWrite] using h1.1 hs,
              fun hf hnf => by simp [notFatal] at hnf⟩
    case _ env2 hw =>
      have h2 := processTxFromUnconfirmed_trace_inv _ _ _ _ _ h
      rw [storeWrite_spec _ _ _ _ hw] at h2
      refine ⟨fun hs => h2.1 (by simpa [isSeqTerminalWrite] using h1.1 hs),
              fun hf hnf => h2.2 (by simpa using h1.2 hf rfl) hnf⟩
  case _ =>
    exact broadcastTx_trace_inv _ _ _ _ _ h

theorem processTxFromProcessing_trace_inv (cfg : WCfg) (tx : TxRow) (env : Env) (fuel : Nat)
    (r : WRes) (tx' : TxRow) (env' : Env)
    (h : processTxFromProcessing cfg tx env fuel = (r, tx', env')) :
    (traceSeqOK env.trace = true → traceSeqOK env'.trace = true) ∧
    (traceNoFail env.trace = true → notFatal r = true → traceNoFail env'.trace = true) := by
  unfold processTxFromProcessing at h
  split at h
  case _ tx1 env1 heq =>
    have h1 := validateTx_trace_inv cfg fuel _ _ _ _ _ heq
    split at h
    case _ env2 hw =>
      cases h
      rw [storeWrite_spec _ _ _ _ hw]
      refine ⟨fun hs => by simpa [isSeqTerminalWrite] using h1.1 hs,
              fun hf hnf => by simp [notFatal] at hnf⟩
    case _ env2 hw =>
      have h2 := processTxFromValidated_trace_inv _ _ _ _ _ h
      rw [storeWrite_spec _ _ _ _ hw] at h2
      refine ⟨fun hs => h2.1 (by simpa [isSeqTerminalWrite] using h1.1 hs),
              fun hf hnf => h2.2 (by simpa using h1.2 hf rfl) hnf⟩
  case _ =>
    exact validateTx_trace_inv cfg fuel _ _ _ _ _ h

theorem processTxFromPending_trace_inv (cfg : WCfg) (tx : TxRow) (env : Env) (fuel : Nat)
    (r : WRes) (tx' : TxRow) (env' : Env)
    (h : processTxFromPending cfg tx env fuel = (r, tx', env')) :
    (traceSeqOK env.trace = true → traceSeqOK env'.trace = true) ∧
    (traceNoFail env.trace = true → notFatal r = true → traceNoFail env'.trace = true) := by
  unfold processTxFromPending at h
  split at h
  case _ env1 hw =>
    cases h
    rw [storeWrite_spec _ _ _ _ hw]
    refine ⟨fun hs => by simpa [isSeqTerminalWrite] using hs,
            fun hf hnf => by simp [notFatal] at hnf⟩
  case _ env1 hw =>
    have h2 := processTxFromProcessing_trace_inv _ _ _ _ _ _ _ h
    rw [storeWrite_spec _ _ _ _ hw] at h2
    refine ⟨fun hs => h2.1 (by simpa [isSeqTerminalWrite] using hs),
            fun hf hnf => h2.2 (by simpa using hf) hnf⟩

theorem processTx_trace_inv (cfg : WCfg) (tx : TxRow) (env : Env) (fuel : Nat)
    (r : WRes) (tx' : TxRow) (env' : Env)
    (h : processTx cfg tx env fuel = (r, tx', env')) :
    (traceSeqOK env.trace = true → traceSeqOK env'.trace = true) ∧
    (traceNoFail env.trace = true → notFatal r = true → traceNoFail env'.trace = true) := by
  unfold processTx at h
  cases htx : tx.state <;> rw [htx] at h
  · exact processTxFromPending_trace_inv _ _ _ _ _ _ _ h
  · exact processTxFromProcessing_trace_inv _ _ _ _ _ _ _ h
  · exact processTxFromValidated_trace_inv _ _ _ _ _ h
  · exact processTxFromUnconfirmed_trace_inv _ _ _ _ _ h
  · cases h; exact ⟨fun hs => hs, fun hf _ => hf⟩
  · cases h; exact ⟨fun hs => hs, fun hf _ => hf⟩

theorem runLoop_trace_inv (cfg : WCfg) (seqID : Int) (txs : List TxRow) :
    ∀ (confirmedTxs : List (String × TxRow)) (env : Env) (fuel : Nat)
      (r : WRes) (confirmed' : List (String × TxRow)) (env' : Env),
      runLoop cfg seqID txs confirmedTxs env fuel = (r, confirmed', env') →
      (traceSeqOK env.trace = true → traceSeqOK env'.trace = true) ∧
      (traceNoFail env.trace = true → notFatal r = true → traceNoFail env'.trace = true) := by
  induction txs with
  | nil =>
    intro c env fuel r c' env' h
    cases h
    exact ⟨fun hs => hs, fun hf _ => hf⟩
  | cons tx rest ihl =>
    intro c env fuel r c' env' h
    unfold runLoop at h
    split at h
    · exact ihl _ _ _ _ _ _ h
    · split at h
      case _ e env1 heq =>
        cases h
        by_cases hc : c.isEmpty = true
        · rw [if_pos hc] at heq
          cases heq
        · rw [if_neg hc] at heq
          exact checkTxsAvailability_trace_inv _ _ _ _ _ heq
      case _ env1 heq =>
        cases h
        by_cases hc : c.isEmpty = true
        · rw [if_pos hc] at heq
          cases heq
        · rw [if_neg hc] at heq
          have := checkTxsAvailability_trace_inv _ _ _ _ _ heq
          exact ⟨this.1, fun hf _ => this.2 hf rfl⟩
      case _ env1 heq =>
        have h1 : (traceSeqOK env.trace = true → traceSeqOK env1.trace = true) ∧
            (traceNoFail env.trace = true → traceNoFail env1.trace = true) := by
          by_cases hc : c.isEmpty = true
          · rw [if_pos hc] at heq
            cases heq
            exact ⟨fun hs => hs, fun hf => hf⟩
          · rw [if_neg hc] at heq
            have := checkTxsAvailability_trace_inv _ _ _ _ _ heq
            exact ⟨this.1, fun hf => this.2 hf rfl⟩
        split at h
        · -- processing row: within the grace window or the cascade
          split at h
          · cases h
            exact ⟨h1.1, fun hf _ => h1.2 hf⟩
          · split at h
            case _ tx1 env2 hp =>
              have h2 := processTx_trace_inv _ _ _ _ _ _ _ hp
              have h3 := ihl _ _ _ _ _ _ h
              exact ⟨fun hs => h3.1 (h2.1 (h1.1 hs)),
                     fun hf hnf => h3.2 (h2.2 (h1.2 hf) rfl) hnf⟩
            case _ r2 tx2 env2 hne hp =>
              cases h
              have h2 := processTx_trace_inv _ _ _ _ _ _ _ hp
              exact ⟨fun hs => h2.1 (h1.1 hs), fun hf hnf => h2.2 (h1.2 hf) hnf⟩
        · -- error row
          cases h
          exact ⟨h1.1, fun hf _ => h1.2 hf⟩
        · -- confirmed row (unreachable at runtime)
          have h3 := ihl _ _ _ _ _ _ h
          exact ⟨fun hs => h3.1 (h1.1 hs), fun hf hnf => h3.2 (h1.2 hf) hnf⟩
        · -- pending, validated, unconfirmed rows: the cascade
          split at h
          case _ tx1 env2 hp =>
            have h2 := processTx_trace_inv _ _ _ _ _ _ _ hp
            have h3 := ihl _ _ _ _ _ _ h
            exact ⟨fun hs => h3.1 (h2.1 (h1.1 hs)),
                   fun hf hnf => h3.2 (h2.2 (h1.2 hf) rfl) hnf⟩
          case _ r2 tx2 env2 hne hp =>
            cases h
            have h2 := processTx_trace_inv _ _ _ _ _ _ _ hp
            exact ⟨fun hs => h2.1 (h1.1 hs), fun hf hnf => h2.2 (h1.2 hf) hnf⟩

theorem waitForTargetHeightLoop_trace_inv (targetHeight seqID : Int) (ids : List String) :
    ∀ (fuel : Nat) (env : Env) (r : WRes) (env' : Env),
      waitForTargetHeightLoop targetHeight seqID ids env fuel = (r, env') →
      (traceSeqOK env.trace = true → traceSeqOK env'.trace = true) ∧
      (traceNoFail env.trace = true → notFatal r = true → traceNoFail env'.trace = true) := by
  intro fuel
  induction fuel with
  | zero =>
    intro env r env' h
    cases h
    exact ⟨fun hs => hs, fun hf _ => hf⟩
  | succ n ih =>
    intro env r env' h
    unfold waitForTargetHeightLoop at h
    split at h
    case _ env1 hw =>
      cases h
      rw [storeWrite_spec _ _ _ _ hw]
      refine ⟨fun hs => by simpa [isSeqTerminalWrite] using hs,
              fun hf hnf => by simp [notFatal] at hnf⟩
    case _ env1 hw =>
      have hw2 := storeWrite_spec _ _ _ _ hw
      split at h
      case _ env2 hca =>
        have h1 := checkTxsAvailability_trace_inv _ _ _ _ _ hca
        rw [hw2] at h1
        split at h
        case _ e env3 hh =>
          cases h
          have ht := (takeHeight_spec env2 _ _ hh).1
          rcases ht with ht | ⟨hh2, hcon, _⟩
          · rw [ht]
            refine ⟨fun hs => h1.1 (by simpa [isSeqTerminalWrite] using hs),
                    fun hf _ => h1.2 (by simpa using hf) rfl⟩
          · cases hcon
        case _ ch env3 hh =>
          have ht := (takeHeight_spec env2 _ _ hh).1
          have ht3 : traceSeqOK env2.trace = true → traceSeqOK env3.trace = true := by
            rcases ht with ht | ⟨hh2, _, hcons⟩
            · rw [ht]; exact fun hs => hs
            · rw [hcons]; exact fun hs => by simpa using hs
          have ht4 : traceNoFail env2.trace = true → traceNoFail env3.trace = true := by
            rcases ht with ht | ⟨hh2, _, hcons⟩
            · rw [ht]; exact fun hf => hf
            · rw [hcons]; exact fun hf => by simpa using hf
          split at h
          · cases h
            refine ⟨fun hs => ht3 (h1.1 (by simpa [isSeqTerminalWrite] using hs)),
                    fun hf _ => ht4 (h1.2 (by simpa using hf) rfl)⟩
          · have h3 := ih _ _ _ h
            refine ⟨fun hs => h3.1 (ht3 (h1.1 (by simpa [isSeqTerminalWrite] using hs))),
                    fun hf hnf => h3.2 (ht4 (h1.2 (by simpa using hf) rfl)) hnf⟩
      case _ r2 env2 hne hca =>
        cases h
        have h1 := checkTxsAvailability_trace_inv _ _ _ _ _ hca
        rw [hw2] at h1
        refine ⟨fun hs => h1.1 (by simpa [isSeqTerminalWrite] using hs),
                fun hf hnf => h1.2 (by simpa using hf) hnf⟩

theorem waitForTargetHeight_trace_inv (targetHeight seqID : Int) (ids : List String)
    (env : Env) (fuel : Nat) (r : WRes) (env' : Env)
    (h : waitForTargetHeight targetHeight seqID ids env fuel = (r, env')) :
    (traceSeqOK env.trace = true → traceSeqOK env'.trace = true) ∧
    (traceNoFail env.trace = true → notFatal r = true → traceNoFail env'.trace = true) := by
  unfold waitForTargetHeight at h
  split at h
  case _ e env1 hh =>
    cases h
    have ht := (takeHeight_spec env _ _ hh).1
    rcases ht with ht | ⟨hh2, hcon, _⟩
    · rw [ht]; exact ⟨fun hs => hs, fun hf _ => hf⟩
    · cases hcon
  case _ ch env1 hh =>
    have ht := (takeHeight_spec env _ _ hh).1
    have ht3 : (traceSeqOK env.trace = true → traceSeqOK env1.trace = true) ∧
        (traceNoFail env.trace = true → traceNoFail env1.trace = true) := by
      rcases ht with ht | ⟨hh2, _, hcons⟩
      · rw [ht]; exact ⟨fun hs => hs, fun hf => hf⟩
      · rw [hcons]; exact ⟨fun hs => by simpa using hs, fun hf => by simpa using hf⟩
    split at h
    · cases h
      exact ⟨ht3.1, fun hf _ => ht3.2 hf⟩
    · have h3 := waitForTargetHeightLoop_trace_inv _ _ _ _ _ _ _ h
      exact ⟨fun hs => h3.1 (ht3.1 hs), fun hf hnf => h3.2 (ht3.2 hf) hnf⟩

theorem runWorker_trace_inv (cfg : WCfg) (seqID : Int) (env : Env) (fuel : Nat)
    (r : WRes) (env' : Env) (h : runWorker cfg seqID env fuel = (r, env')) :
    (traceSeqOK env.trace = true → traceSeqOK env'.trace = true) ∧
    (traceNoFail env.trace = true → notFatal r = true → traceNoFail env'.trace = true) := by
  unfold runWorker at h
  dsimp only at h
  split at h
  case _ confirmedTxs env1 hrl =>
    have h1 := runLoop_trace_inv _ _ _ _ _ _ _ _ _ hrl
    have h2 := waitForTargetHeight_trace_inv _ _ _ _ _ _ _ h
    simp only [pushEvent] at h2
    refine ⟨fun hs => h2.1 (by simpa using h1.1 hs),
            fun hf hnf => h2.2 (by simpa using h1.2 hf rfl) hnf⟩
  case _ r2 c2 env1 hne hrl =>
    cases h
    exact runLoop_trace_inv _ _ _ _ _ _ _ _ _ hrl

/-- Trace extension: the second trace is the first with newer events in
front. -/
def TraceExtends (t t' : List Event) : Prop := ∃ d, t' = d ++ t

theorem TraceExtends.self (t : List Event) : TraceExtends t t := ⟨[], (List.nil_append t).symm⟩

theorem TraceExtends.cons (e : Event) (t : List Event) : TraceExtends t (e :: t) :=
  ⟨[e], rfl⟩

theorem TraceExtends.trans {t1 t2 t3 : List Event} :
    TraceExtends t1 t2 → TraceExtends t2 t3 → TraceExtends t1 t3 := by
  rintro ⟨d1, rfl⟩ ⟨d2, rfl⟩
  exact ⟨d2 ++ d1, by simp⟩

theorem TraceExtends.mem {t t' : List Event} (h : TraceExtends t t') {e : Event}
    (he : e ∈ t) : e ∈ t' := by
  rcases h with ⟨d, rfl⟩
  exact List.mem_append_right d he

@[simp]
theorem lastObservedHeight_height_cons (h : Int) (t : List Event) :
    lastObservedHeight (Event.height h :: t) = some h := rfl

@[simp]
theorem lastObservedHeight_store_cons (op : StoreOp) (b : Bool) (t : List Event) :
    lastObservedHeight (Event.store op b :: t) = lastObservedHeight t := rfl

@[simp]
theorem lastObservedHeight_quiescence_cons (hs : List Int) (t : List Event) :
    lastObservedHeight (Event.quiescenceStart hs :: t) = lastObservedHeight t := rfl

theorem takeHeight_ok_trace (env : Env) (h : Int) (env1 : Env) :
    takeHeight env = (.ok h, env1) → env1.trace = Event.height h :: env.trace := by
  unfold takeHeight
  match hr : env.heightResps with
  | [] => intro hx; cases hx
  | .error e :: rest => intro hx; cases hx
  | .ok hh :: rest => intro hx; cases hx; simp

theorem checkTxsAvailability_extends (seqID : Int) (ids : List String) (env : Env)
    (r : WRes) (env' : Env) (h : checkTxsAvailability seqID ids env = (r, env')) :
    TraceExtends env.trace env'.trace := by
  unfold checkTxsAvailability at h
  split at h
  case _ e env1 heq =>
    cases h
    rw [(takeAvail_spec env _ _ heq).1.symm]
    exact TraceExtends.self _
  case _ avail env1 heq =>
    have ht := (takeAvail_spec env _ _ heq).1
    split at h
    · cases h
      rw [← ht]
      exact TraceExtends.self _
    case _ txId hfind =>
      split at h <;>
        (rename_i env2 hw
         cases h
         rw [storeWrite_spec _ _ _ _ hw, ht]
         exact TraceExtends.cons _ _)

theorem waitForTargetHeightLoop_extends (targetHeight seqID : Int) (ids : List String) :
    ∀ (fuel : Nat) (env : Env) (r : WRes) (env' : Env),
      waitForTargetHeightLoop targetHeight seqID ids env fuel = (r, env') →
      TraceExtends env.trace env'.trace := by
  intro fuel
  induction fuel with
  | zero =>
    intro env r env' h
    cases h
    exact TraceExtends.self _
  | succ n ih =>
    intro env r env' h
    unfold waitForTargetHeightLoop at h
    split at h
    case _ env1 hw =>
      cases h
      rw [storeWrite_spec _ _ _ _ hw]
      exact TraceExtends.cons _ _
    case _ env1 hw =>
      have hx1 : TraceExtends env.trace env1.trace := by
        rw [storeWrite_spec _ _ _ _ hw]; exact TraceExtends.cons _ _
      split at h
      case _ env2 hca =>
        have hx2 := hx1.trans (checkTxsAvailability_extends _ _ _ _ _ hca)
        split at h
        case _ e env3 hh =>
          cases h
          have ht := (takeHeight_spec env2 _ _ hh).1
          rcases ht with ht | ⟨hh2, hcon, _⟩
          · exact ht ▸ hx2
          · cases hcon
        case _ ch env3 hh =>
          have hx3 : TraceExtends env.trace env3.trace := hx2.trans
            (by rw [takeHeight_ok_trace _ _ _ hh]; exact TraceExtends.cons _ _)
          split at h
          · cases h; exact hx3
          · exact hx3.trans (ih _ _ _ h)
      case _ r2 env2 hne hca =>
        cases h
        exact hx1.trans (checkTxsAvailability_extends _ _ _ _ _ hca)

theorem waitForTargetHeight_extends (targetHeight seqID : Int) (ids : List String)
    (env : Env) (fuel : Nat) (r : WRes) (env' : Env)
    (h : waitForTargetHeight targetHeight seqID ids env fuel = (r, env')) :
    TraceExtends env.trace env'.trace := by
  unfold waitForTargetHeight at h
  split at h
  case _ e env1 hh =>
    cases h
    have ht := (takeHeight_spec env _ _ hh).1
    rcases ht with ht | ⟨hh2, hcon, _⟩
    · exact ht ▸ TraceExtends.self _
    · cases hcon
  case _ ch env1 hh =>
    have hx1 : TraceExtends env.trace env1.trace := by
      rw [takeHeight_ok_trace _ _ _ hh]; exact TraceExtends.cons _ _
    split at h
    · cases h; exact hx1
    · exact hx1.trans (waitForTargetHeightLoop_extends _ _ _ _ _ _ _ h)

theorem waitForTargetHeightLoop_ok_height (targetHeight seqID : Int) (ids : List String) :
    ∀ (fuel : Nat) (env : Env) (env' : Env),
      waitForTargetHeightLoop targetHeight seqID ids env fuel = (.ok, env') →
      ∃ h, lastObservedHeight env'.trace = some h ∧ targetHeight ≤ h := by
  intro fuel
  induction fuel with
  | zero => intro env env' h; cases h
  | succ n ih =>
    intro env env' h
    unfold waitForTargetHeightLoop at h
    split at h
    case _ env1 hw => cases h
    case _ env1 hw =>
      split at h
      case _ env2 hca =>
        split at h
        case _ e env3 hh => cases h
        case _ ch env3 hh =>
          split at h
          case _ hle =>
            cases h
            refine ⟨ch, ?_, hle⟩
            rw [takeHeight_ok_trace _ _ _ hh]
            simp
          case _ hle => exact ih _ _ h
      case _ r2 env2 hne hca =>
        cases h
        exact absurd rfl hne

theorem waitForTargetHeight_ok_height (targetHeight seqID : Int) (ids : List String)
    (env : Env) (fuel : Nat) (env' : Env)
    (h : waitForTargetHeight targetHeight seqID ids env fuel = (.ok, env')) :
    ∃ hh, lastObservedHeight env'.trace = some hh ∧ targetHeight ≤ hh := by
  unfold waitForTargetHeight at h
  split at h
  case _ e env1 hh => cases h
  case _ ch env1 hh =>
    split at h
    case _ hle =>
      cases h
      refine ⟨ch, ?_, hle⟩
      rw [takeHeight_ok_trace _ _ _ hh]
      simp
    case _ hle => exact waitForTargetHeightLoop_ok_height _ _ _ _ _ _ h

theorem traceSeqOK_mem {t : List Event} (h : traceSeqOK t = true) {op : StoreOp} {b : Bool}
    (hm : Event.store op b ∈ t) : isSeqTerminalWrite op = false := by
  have := List.all_eq_true.mp h _ hm
  simpa using this

theorem traceNoFail_mem {t : List Event} (h : traceNoFail t = true) {op : StoreOp}
    (hm : Event.store op false ∈ t) : False := by
  have := List.all_eq_true.mp h _ hm
  simp at this

theorem findUnavailable_mem : ∀ (l : List (String × Bool)) (x : String),
    findUnavailable l = some x → (x, false) ∈ l := by
  intro l
  induction l with
  | nil => intro x h; cases h
  | cons p rest ih =>
    intro x h
    unfold findUnavailable at h
    rcases p with ⟨pid, pav⟩
    by_cases hav : pav = true
    · subst hav
      rw [if_pos rfl] at h
      exact List.mem_cons_of_mem _ (ih x h)
    · have hav2 : pav = false := by simpa using hav
      subst hav2
      rw [if_neg (by simp)] at h
      cases h
      exact List.mem_cons_self _ _

/-! ### Claim theorems -/

/-- C4: for every worker outcome received by the dispatcher (with the store
write succeeding where one is issued): a Recoverable error refreshes the
lease via SetSequenceStateByID(processing) and respawns a worker for the
same sequence id; a NonRecoverable error persists
SetSequenceErrorStateByID with the error's reason and numeric code and the
loop continues without respawning (the sequence is terminal in the store);
a Fatal error makes RunLoop return carrying it; a nil outcome sets the
sequence state to done. -/
theorem dispatchOutcome_cases (seqID : Int) (env : Env) (m reason : String) (code : Nat)
    (hfail : env.storeFail = []) :
    dispatchOutcome seqID (some (.recoverable m)) env =
      (DispatchResult.continueLoop true,
       { env with store := applyStoreOp env.store (.setSeqState seqID .processing),
                  trace := Event.store (.setSeqState seqID .processing) true :: env.trace }) ∧
    dispatchOutcome seqID (some (.nonRecoverable reason code)) env =
      (DispatchResult.continueLoop false,
       { env with store := applyStoreOp env.store (.setSeqErrorState seqID reason code),
                  trace := Event.store (.setSeqErrorState seqID reason code) true :: env.trace }) ∧
    dispatchOutcome seqID (some (.fatal m)) env = (DispatchResult.exitFatal m, env) ∧
    dispatchOutcome seqID none env =
      (DispatchResult.continueLoop false,
       { env with store := applyStoreOp env.store (.setSeqState seqID .done),
                  trace := Event.store (.setSeqState seqID .done) true :: env.trace }) := by
  refine ⟨?_, ?_, rfl, ?_⟩ <;> simp [dispatchOutcome, storeWrite, hfail]

/-- Environment for the dispatcher witness. -/
def envD : Env :=
  { store := { seqs := [{ id := 7, state := SeqState.processing, errorMessage := "", errorCode := 0 }],
               txs := [] },
    storeFail := [], validateResps := [], broadcastResps := [], waitStatusResps := [],
    heightResps := [], waitNextHeightResps := [], availResps := [], trace := [] }

/-- Witness for C4 at a concrete environment. -/
theorem dispatchOutcome_cases_witness :
    envD.storeFail = [] ∧
    dispatchOutcome 7 (some (.fatal "boom")) envD = (DispatchResult.exitFatal "boom", envD) ∧
    dispatchOutcome 7 none envD =
      (DispatchResult.continueLoop false,
       { envD with store := applyStoreOp envD.store (.setSeqState 7 .done),
                   trace := [Event.store (.setSeqState 7 .done) true] }) :=
  ⟨rfl, (dispatchOutcome_cases 7 envD "boom" "r" 3 rfl).2.2.1,
   (dispatchOutcome_cases 7 envD "boom" "r" 3 rfl).2.2.2⟩

/-- C10: GetSequenceByID returns an absent result exactly when no sequences
row carries the id, and otherwise a payload whose broadcastedCount is the
number of the sequence's transactions in state confirmed (wire code 4) and
whose totalCount is the number of all its transactions. -/
theorem getSequenceByID_counts (st : Store) (seqId : Int) :
    (getSequenceByID st seqId = none ↔ ∀ row ∈ st.seqs, row.id ≠ seqId) ∧
    (∀ dto, getSequenceByID st seqId = some dto →
      dto.broadcastedCount =
        st.txs.countP (fun r => r.seqId == seqId && r.state == TxState.confirmed) ∧
      dto.totalCount = st.txs.countP (fun r => r.seqId == seqId) ∧
      TxState.confirmed.code = 4) := by
  constructor
  · unfold getSequenceByID
    cases hf : st.seqs.find? fun r => r.id == seqId with
    | none =>
      simp only [true_iff]
      intro row hrow
      have := List.find?_eq_none.mp hf row hrow
      simpa using this
    | some s =>
      simp only [reduceCtorEq, false_iff, not_forall]
      have hmem := List.mem_of_find?_eq_some hf
      have hpred := List.find?_some hf
      exact ⟨s, hmem, fun hne => hne (by simpa using hpred)⟩
  · intro dto h
    unfold getSequenceByID at h
    cases hf : st.seqs.find? fun r => r.id == seqId with
    | none => rw [hf] at h; cases h
    | some s =>
      rw [hf] at h
      cases h
      refine ⟨?_, ?_, rfl⟩ <;> simp [List.countP_eq_length_filter]

/-- Store for the C10 witness: two transactions, one confirmed and one
unconfirmed (broadcast but not yet counted). -/
def wStoreC10 : Store :=
  { seqs := [{ id := 1, state := SeqState.processing, errorMessage := "", errorCode := 0 }],
    txs := [{ id := "A", seqId := 1, state := TxState.confirmed, height := 100,
              errorMessage := "", pos := 0, tx := { timestampDecode := some 0 }, updatedAt := 0 },
            { id := "B", seqId := 1, state := TxState.unconfirmed, height := 0,
              errorMessage := "", pos := 1, tx := { timestampDecode := some 0 }, updatedAt := 0 }] }

/-- The payload GetSequenceByID returns on wStoreC10. -/
def dtoC10 : SequenceDto :=
  { id := 1, broadcastedCount := 1, totalCount := 2, state := SeqState.processing,
    errorMessage := "", errorCode := 0 }

/-- Witness for C10: a missing id gives an absent result; with one confirmed
and one merely-broadcast transaction the counts are 1 of 2. -/
theorem getSequenceByID_counts_witness :
    getSequenceByID wStoreC10 5 = none ∧
    (getSequenceByID wStoreC10 1 = some dtoC10 ∧
     dtoC10.broadcastedCount =
       wStoreC10.txs.countP (fun r => r.seqId == 1 && r.state == TxState.confirmed) ∧
     dtoC10.totalCount = wStoreC10.txs.countP (fun r => r.seqId == 1) ∧
     TxState.confirmed.code = 4) :=
  ⟨(getSequenceByID_counts wStoreC10 5).1.mpr (by decide),
   by decide, ((getSequenceByID_counts wStoreC10 1).2 dtoC10 (by decide)).1,
   ((getSequenceByID_counts wStoreC10 1).2 dtoC10 (by decide)).2.1,
   ((getSequenceByID_counts wStoreC10 1).2 dtoC10 (by decide)).2.2⟩

/-- The HTTP response refuting C7: status 400 with a decodable node error
body. -/
def respC7 : HttpResp :=
  { status := 400, validateDecode := none, errorDecode := some ("err msg", 112) }

/-- C7 counterexample: a non-2xx debug-validate response is not mapped to a
node error; the client decodes the error body and returns a validity
verdict (valid=false with the node's message). -/
theorem nodeValidateTx_non200_counterexample :
    respC7.status ≠ 200 ∧
    nodeValidateTx (HttpResult.resp respC7) =
      Except.ok { isValid := false, errorMessage := "err msg" } := by
  constructor
  · decide
  · rfl

/-- C7 amended: a 200 response carries the node's validity verdict; a
non-200 response whose body decodes as the node's error shape yields the
verdict valid=false with the node's message; only a transport failure or an
undecodable body is mapped to an internal node error. -/
theorem nodeValidateTx_classification (r : HttpResp) :
    (r.status = 200 → ∀ v e, r.validateDecode = some (v, e) →
      nodeValidateTx (HttpResult.resp r) = Except.ok { isValid := v, errorMessage := e }) ∧
    (r.status ≠ 200 → ∀ msg c, r.errorDecode = some (msg, c) →
      nodeValidateTx (HttpResult.resp r) = Except.ok { isValid := false, errorMessage := msg }) ∧
    (r.status ≠ 200 → r.errorDecode = none →
      nodeValidateTx (HttpResult.resp r) =
        Except.error (NodeErr.mkSimple internalError jsonDecodeErrMsg)) ∧
    (∀ m, nodeValidateTx (HttpResult.transportError m) =
        Except.error (NodeErr.mkSimple internalError m)) := by
  refine ⟨?_, ?_, ?_, fun m => rfl⟩
  · intro h200 v e hd
    simp [nodeValidateTx, h200, hd]
  · intro hne msg c hd
    simp [nodeValidateTx, hne, hd]
  · intro hne hd
    simp [nodeValidateTx, hne, hd]

/-- Witness for the amended C7 at concrete responses. -/
theorem nodeValidateTx_classification_witness :
    nodeValidateTx (HttpResult.resp { status := 200, validateDecode := some (true, ""),
                                      errorDecode := none }) =
      Except.ok { isValid := true, errorMessage := "" } ∧
    nodeValidateTx (HttpResult.resp { status := 500, validateDecode := none,
                                      errorDecode := some ("down", 0) }) =
      Except.ok { isValid := false, errorMessage := "down" } :=
  ⟨(nodeValidateTx_classification _).1 rfl true "" rfl,
   (nodeValidateTx_classification _).2.1 (by decide) "down" 0 rfl⟩

/-- The node-height script refuting the spec's reading of
WaitForNextHeight: entry height 5, then the chain reaches 6 and stays
there. -/
def nodeEnvC6 : NodeEnv :=
  { heights := Except.ok 5 :: List.replicate 8 (Except.ok 6) }

/-- C6: WaitForNextHeight is specified as polling until the height strictly
exceeds the value observed at entry, but the code calls
WaitForTargetHeight(entry+1), whose success condition is height strictly
greater than its argument: after entry at height 5, the code keeps polling
forever while the chain sits at 6, though 6 already strictly exceeds 5.
The spec-worded wait succeeds at the first poll on the same script. -/
theorem nodeWaitForNextHeight_off_by_one :
    (specWaitForNextHeight nodeEnvC6 8).1 = NodeWaitRes.ok ∧
    (nodeWaitForNextHeight nodeEnvC6 8).1 = NodeWaitRes.outOfFuel := by
  constructor <;> decide

/-- C1: whenever a worker run returns nil, the run recorded a quiescence
start whose heights are those of the confirmed transactions, and the last
node height the worker observed is at least the largest of those heights
plus heightsAfterLastTx; and the dispatcher's handling of the nil outcome
is exactly the terminal done write. -/
theorem runWorker_quiescence_height (cfg : WCfg) (seqID : Int) (env : Env) (fuel : Nat)
    (env' : Env) (h : runWorker cfg seqID env fuel = (.ok, env')) :
    (∃ hs hh, Event.quiescenceStart hs ∈ env'.trace ∧
       lastObservedHeight env'.trace = some hh ∧
       listMax0 hs + cfg.heightsAfterLastTx ≤ hh) ∧
    (∀ denv : Env, denv.storeFail = [] →
       dispatchOutcome seqID none denv =
         (DispatchResult.continueLoop false,
          { denv with store := applyStoreOp denv.store (.setSeqState seqID .done),
                      trace := Event.store (.setSeqState seqID .done) true :: denv.trace })) := by
  constructor
  · unfold runWorker at h
    dsimp only at h
    split at h
    case _ confirmedTxs env1 hrl =>
      obtain ⟨hh, hlast, hle⟩ := waitForTargetHeight_ok_height _ _ _ _ _ _ h
      have hext := waitForTargetHeight_extends _ _ _ _ _ _ _ h
      refine ⟨List.map (fun p => p.2.height) confirmedTxs, hh, ?_, hlast, hle⟩
      exact hext.mem (by simp [pushEvent])
    case _ r2 c2 env1 hne hrl =>
      cases h
      exact absurd rfl hne
  · intro denv hdf
    simp [dispatchOutcome, storeWrite, hdf]

/-- Payload of the happy-path witness transaction. -/
def bodyFresh : TxBody := { timestampDecode := some 1000 }

/-- A pending transaction row for the happy-path witness. -/
def rowPendingW : TxRow :=
  { id := "", seqId := 1, state := TxState.pending, height := 0, errorMessage := "",
    pos := 0, tx := bodyFresh, updatedAt := 900 }

/-- Store for the happy-path witness. -/
def storeW : Store :=
  { seqs := [{ id := 1, state := SeqState.processing, errorMessage := "", errorCode := 0 }],
    txs := [rowPendingW] }

/-- Worker configuration for the happy-path witness. -/
def cfgW : WCfg :=
  { now := 1000, txProcessingTTL := 3000, heightsAfterLastTx := 6, txOutdateTime := 14400000 }

/-- Happy-path environment: one pending transaction that validates,
broadcasts as "A", confirms at height 100, with the chain at 106. -/
def envW : Env :=
  { store := storeW, storeFail := [],
    validateResps := [Except.ok (true, "")],
    broadcastResps := [Except.ok "A"],
    waitStatusResps := [Except.ok 100],
    heightResps := [Except.ok 106],
    waitNextHeightResps := [], availResps := [], trace := [] }

/-- Witness for C1: the happy-path run returns nil and the height bound
holds on it. -/
theorem runWorker_quiescence_height_witness :
    (∃ hs hh, Event.quiescenceStart hs ∈ (runWorker cfgW 1 envW 5).2.trace ∧
       lastObservedHeight (runWorker cfgW 1 envW 5).2.trace = some hh ∧
       listMax0 hs + cfgW.heightsAfterLastTx ≤ hh) ∧
    (∀ denv : Env, denv.storeFail = [] →
       dispatchOutcome 1 none denv =
         (DispatchResult.continueLoop false,
          { denv with store := applyStoreOp denv.store (.setSeqState 1 .done),
                      trace := Event.store (.setSeqState 1 .done) true :: denv.trace })) :=
  runWorker_quiescence_height cfgW 1 envW 5 (runWorker cfgW 1 envW 5).2 rfl

/-- C9: a worker pass issues no terminal sequence-level store write: every
sequence-level write in its trace is SetSequenceStateByID(processing),
never done, never error, and never SetSequenceErrorStateByID; the terminal
done and error writes are exactly what the dispatcher performs on a nil or
NonRecoverable outcome. -/
theorem runWorker_no_terminal_seq_writes (cfg : WCfg) (seqID : Int) (env : Env) (fuel : Nat)
    (henv : env.trace = []) :
    (∀ op b, Event.store op b ∈ (runWorker cfg seqID env fuel).2.trace →
       isSeqTerminalWrite op = false) ∧
    (∀ denv : Env, denv.storeFail = [] →
       (dispatchOutcome seqID none denv).2.store =
         applyStoreOp denv.store (.setSeqState seqID .done) ∧
       ∀ reason code, (dispatchOutcome seqID (some (.nonRecoverable reason code)) denv).2.store =
         applyStoreOp denv.store (.setSeqErrorState seqID reason code)) := by
  constructor
  · intro op b hmem
    have hinv := runWorker_trace_inv cfg seqID env fuel
      (runWorker cfg seqID env fuel).1 (runWorker cfg seqID env fuel).2 rfl
    have hok : traceSeqOK (runWorker cfg seqID env fuel).2.trace = true :=
      hinv.1 (by rw [henv]; rfl)
    exact traceSeqOK_mem hok hmem
  · intro denv hdf
    constructor
    · simp [dispatchOutcome, storeWrite, hdf]
    · intro reason code
      simp [dispatchOutcome, storeWrite, hdf]

/-- Witness for C9 on the happy-path run. -/
theorem runWorker_no_terminal_seq_writes_witness :
    envW.trace = [] ∧
    (∀ op b, Event.store op b ∈ (runWorker cfgW 1 envW 5).2.trace →
       isSeqTerminalWrite op = false) :=
  ⟨rfl, (runWorker_no_terminal_seq_writes cfgW 1 envW 5 rfl).1⟩

/-- C8 amended: every failed store write in a worker pass makes the pass
return Fatal; a malformed raw payload (json decode failure during the local
outdated check) instead yields NonRecoverable with code 0; and a Fatal
outcome makes the dispatcher loop exit carrying it. -/
theorem worker_fatal_classification :
    (∀ (cfg : WCfg) (seqID : Int) (env : Env) (fuel : Nat) (r : WRes) (env' : Env),
       runWorker cfg seqID env fuel = (r, env') → env.trace = [] →
       ∀ op, Event.store op false ∈ env'.trace → ∃ msg, r = .err (.fatal msg)) ∧
    (∀ (cfg : WCfg) (tx : TxRow) (env : Env) (m : String)
       (vrest : List (Except NodeErr (Bool × String))) (fuel : Nat),
       env.validateResps = Except.ok (false, m) :: vrest →
       transactionDuplicateErrorCapture m = none →
       tx.tx.timestampDecode = none →
       (validateTx cfg tx env (fuel + 1)).1 = .err (.nonRecoverable jsonDecodeErrMsg 0)) ∧
    (∀ (seqID : Int) (env : Env) (m : String),
       dispatchOutcome seqID (some (.fatal m)) env = (DispatchResult.exitFatal m, env)) := by
  refine ⟨?_, ?_, fun seqID env m => rfl⟩
  · intro cfg seqID env fuel r env' h henv op hmem
    by_cases hnf : notFatal r = true
    · have hinv := runWorker_trace_inv cfg seqID env fuel r env' h
      have hok : traceNoFail env'.trace = true := hinv.2 (by rw [henv]; rfl) hnf
      exact absurd hok (by simpa using traceNoFail_mem · hmem)
    · cases r with
      | ok => simp [notFatal] at hnf
      | outOfFuel => simp [notFatal] at hnf
      | err e =>
        cases e with
        | recoverable m2 => simp [notFatal] at hnf
        | nonRecoverable m2 c2 => simp [notFatal] at hnf
        | fatal m2 => exact ⟨m2, rfl⟩
  · intro cfg tx env m vrest fuel henv hdup hts
    have htv : takeValidate env = (Except.ok (false, m), { env with validateResps := vrest }) := by
      unfold takeValidate
      rw [henv]
    have hout : isTxOutdated cfg tx.tx = Except.error jsonDecodeErrMsg := by
      unfold isTxOutdated
      rw [hts]
    simp [validateTx, htv, hdup, hout]

/-- A processing-state transaction whose payload does not decode. -/
def txC8 : TxRow :=
  { id := "", seqId := 1, state := TxState.processing, height := 0, errorMessage := "",
    pos := 0, tx := { timestampDecode := none }, updatedAt := 0 }

/-- Environment for the malformed-payload run: the node reports the
transaction invalid with a non-duplicate message. -/
def envC8 : Env :=
  { store := { seqs := [{ id := 1, state := SeqState.processing, errorMessage := "", errorCode := 0 }],
               txs := [txC8] },
    storeFail := [], validateResps := [Except.ok (false, "boom")], broadcastResps := [],
    waitStatusResps := [], heightResps := [], waitNextHeightResps := [], availResps := [],
    trace := [] }

/-- C8 counterexample: on a malformed payload the worker returns
NonRecoverable (code 0), not Fatal as the claim states. -/
theorem validateTx_malformed_not_fatal :
    (validateTx cfgW txC8 envC8 2).1 = WRes.err (.nonRecoverable jsonDecodeErrMsg 0) ∧
    (∀ msg, (validateTx cfgW txC8 envC8 2).1 ≠ WRes.err (.fatal msg)) := by
  have h1 : (validateTx cfgW txC8 envC8 2).1 = WRes.err (.nonRecoverable jsonDecodeErrMsg 0) := by
    decide
  refine ⟨h1, fun msg => ?_⟩
  rw [h1]
  simp

/-- Witness for the amended C8: the malformed-payload branch at a concrete
input. -/
theorem worker_fatal_classification_witness :
    envC8.validateResps = Except.ok (false, "boom") :: [] ∧
    (validateTx cfgW txC8 envC8 1).1 = .err (.nonRecoverable jsonDecodeErrMsg 0) :=
  ⟨rfl, worker_fatal_classification.2.1 cfgW txC8 envC8 "boom" [] 0 rfl (by decide) rfl⟩

/-- C5: when BroadcastTx fails with a message matching the duplicate
pattern with captured id X, broadcastTx behaves identically to a fresh
successful broadcast returning X: the same result, the same store effects
(clear the error message, persist X as the row's tx_id), and the cascade
continuation from state validated is likewise identical. -/
theorem broadcastTx_duplicate_absorption (tx : TxRow) (e : NodeErr) (txID : String)
    (rest : List (Except NodeErr String)) (env : Env)
    (hdup : transactionDuplicateErrorCapture e.message = some txID)
    (henv : env.broadcastResps = Except.error e :: rest)
    (hfail : env.storeFail = []) :
    broadcastTx tx env = broadcastTx tx { env with broadcastResps := Except.ok txID :: rest } ∧
    processTxFromValidated tx env =
      processTxFromValidated tx { env with broadcastResps := Except.ok txID :: rest } ∧
    broadcastTx tx env =
      (.ok, { tx with errorMessage := "", id := txID },
       { env with broadcastResps := rest,
                  store := applyStoreOp
                    (applyStoreOp env.store (.resetTxErrorMessage tx.seqId tx.pos))
                    (.setTxID tx.seqId tx.pos txID),
                  trace := Event.store (.setTxID tx.seqId tx.pos txID) true ::
                           Event.store (.resetTxErrorMessage tx.seqId tx.pos) true ::
                           env.trace }) := by
  have h1 : broadcastTx tx env = broadcastTxPersist tx txID { env with broadcastResps := rest } := by
    unfold broadcastTx takeBroadcast
    rw [henv]
    simp [hdup]
  have h2 : broadcastTx tx { env with broadcastResps := Except.ok txID :: rest } =
      broadcastTxPersist tx txID { env with broadcastResps := rest } := by
    unfold broadcastTx takeBroadcast
    simp
  have h12 := h1.trans h2.symm
  refine ⟨h12, ?_, ?_⟩
  · simp only [processTxFromValidated]
    rw [h12]
  · rw [h1]
    unfold broadcastTxPersist storeWrite
    simp [hfail]

/-- The duplicate-broadcast node error of the C5 witness. -/
def eDup : NodeErr :=
  { code := broadcastClientError, nodeErrorCode := 112,
    message := "State check failed. Reason: Transaction ABC is already in the state on a height of 500" }

/-- A validated row awaiting broadcast, for the C5 witness. -/
def rowValidatedW : TxRow :=
  { id := "", seqId := 1, state := TxState.validated, height := 0, errorMessage := "old",
    pos := 0, tx := bodyFresh, updatedAt := 900 }

/-- Environment whose broadcast response is the duplicate error. -/
def envB : Env :=
  { store := { seqs := [{ id := 1, state := SeqState.processing, errorMessage := "", errorCode := 0 }],
               txs := [rowValidatedW] },
    storeFail := [], validateResps := [], broadcastResps := [Except.error eDup],
    waitStatusResps := [Except.ok 500], heightResps := [], waitNextHeightResps := [],
    availResps := [], trace := [] }

/-- Witness for C5 at the concrete duplicate message capturing id ABC. -/
theorem broadcastTx_duplicate_absorption_witness :
    transactionDuplicateErrorCapture eDup.message = some "ABC" ∧
    broadcastTx rowValidatedW envB =
      broadcastTx rowValidatedW { envB with broadcastResps := [Except.ok "ABC"] } :=
  ⟨by decide, (broadcastTx_duplicate_absorption rowValidatedW eDup "ABC" [] envB
      (by decide) rfl rfl).1⟩

/-- Modelled from the spec: match the duplicate pattern exactly as the spec
quotes it, `Transaction (\w+) is already in the state on a height of \d+`,
at the start of `s`, returning the capture group — the code's
transactionDuplicateErrorRE additionally requires the prefix
`State check failed. Reason: ` in front of this. -/
def specDuplicateCaptureAt (s : List Char) : Option (List Char) :=
  match dropLit "Transaction ".toList s with
  | none => none
  | some s1 =>
    let w := s1.takeWhile goIsWordChar
    if w.isEmpty then none else
    match dropLit " is already in the state on a height of ".toList (s1.dropWhile goIsWordChar) with
    | none => none
    | some s2 =>
      if (s2.takeWhile Char.isDigit).isEmpty then none else some w

/-- Modelled from the spec: the spec-quoted duplicate pattern applied
unanchored, leftmost match first. -/
def specTransactionDuplicateErrorCapture (s : String) : Option String :=
  (scanPositionsCapture specDuplicateCaptureAt s.toList).map fun w => String.mk w

/-- A broadcast error whose text matches the spec-quoted duplicate pattern
but lacks the prefix the code's regex requires. -/
def eNoPrefix : NodeErr :=
  { code := broadcastClientError, nodeErrorCode := 112,
    message := "Transaction ABC is already in the state on a height of 500" }

/-- Environment whose broadcast response is the unprefixed duplicate
message. -/
def envB5 : Env :=
  { store := { seqs := [{ id := 1, state := SeqState.processing, errorMessage := "", errorCode := 0 }],
               txs := [rowValidatedW] },
    storeFail := [], validateResps := [], broadcastResps := [Except.error eNoPrefix],
    waitStatusResps := [Except.ok 500], heightResps := [], waitNextHeightResps := [],
    availResps := [], trace := [] }

/-- C5 counterexample: the message matches the claim's quoted regex
`Transaction (\w+) is already in the state on a height of \d+` with
captured id ABC, but the code's regex (which demands the
`State check failed. Reason: ` prefix) does not match it, and broadcastTx
does not absorb: it returns NonRecoverable with the node's code, clears
nothing, persists nothing — unlike a fresh successful broadcast of ABC,
which succeeds and mutates the row. -/
theorem broadcastTx_no_absorption_without_prefix :
    specTransactionDuplicateErrorCapture eNoPrefix.message = some "ABC" ∧
    transactionDuplicateErrorCapture eNoPrefix.message = none ∧
    broadcastTx rowValidatedW envB5 =
      (.err (.nonRecoverable eNoPrefix.message eNoPrefix.nodeErrorCode), rowValidatedW,
       { envB5 with broadcastResps := [] }) ∧
    (broadcastTx rowValidatedW { envB5 with broadcastResps := [Except.ok "ABC"] }).1 =
      WRes.ok := by
  refine ⟨by decide, by decide, ?_, by decide⟩
  rfl

/-- C2 amended: whenever the reorg check (the shared checkTxsAvailability,
called from the positional loop and from every quiescence tick) sees some
previously-confirmed transaction reported absent, it performs
SetSequenceTxsStateAfter(seqID, badID, pending) for badID the first absent
id in iteration order (not necessarily the earliest by position), which
resets every transaction of the sequence at a position at or after badID's
row to pending, and then returns Recoverable — the reset precedes the
return. -/
theorem checkTxsAvailability_reset_behavior (seqID : Int) (ids : List String)
    (lst : List (String × Bool)) (arest : List (Except NodeErr (List (String × Bool))))
    (env : Env) (badID : String)
    (henv : env.availResps = Except.ok lst :: arest)
    (hfail : env.storeFail = [])
    (hfind : findUnavailable lst = some badID) :
    checkTxsAvailability seqID ids env =
      (.err (.recoverable pulledOutMsg),
       { env with availResps := arest,
                  store := applyStoreOp env.store (.setTxsStateAfter seqID badID .pending),
                  trace := Event.store (.setTxsStateAfter seqID badID .pending) true ::
                           env.trace }) ∧
    (badID, false) ∈ lst ∧
    (∀ r0, env.store.txs.find? (fun rr => rr.seqId == seqID && rr.id == badID) = some r0 →
      ∀ rr ∈ (applyStoreOp env.store (.setTxsStateAfter seqID badID .pending)).txs,
        rr.seqId = seqID → r0.pos ≤ rr.pos → rr.state = TxState.pending) := by
  refine ⟨?_, findUnavailable_mem _ _ hfind, ?_⟩
  · unfold checkTxsAvailability takeAvail storeWrite
    rw [henv]
    simp [hfind, hfail]
  · intro r0 hr0 rr hrr hseq hpos
    simp only [applyStoreOp] at hrr
    rw [hr0] at hrr
    rcases List.mem_map.mp hrr with ⟨x, hx, rfl⟩
    by_cases hcond : x.seqId = seqID ∧ r0.pos ≤ x.pos
    · rw [if_pos hcond]
    · rw [if_neg hcond] at hseq hpos ⊢
      exact absurd ⟨hseq, hpos⟩ hcond

/-- Rows for the C2 counterexample: transactions A and B confirmed at
positions 0 and 1, a third row pending at position 2. -/
def storeC2 : Store :=
  { seqs := [{ id := 1, state := SeqState.processing, errorMessage := "", errorCode := 0 }],
    txs := [{ id := "A", seqId := 1, state := TxState.confirmed, height := 100,
              errorMessage := "", pos := 0, tx := bodyFresh, updatedAt := 0 },
            { id := "B", seqId := 1, state := TxState.confirmed, height := 101,
              errorMessage := "", pos := 1, tx := bodyFresh, updatedAt := 0 },
            { id := "", seqId := 1, state := TxState.pending, height := 0,
              errorMessage := "", pos := 2, tx := bodyFresh, updatedAt := 0 }] }

/-- Environment for the C2 counterexample: the availability response lists
B (position 1) before A (position 0), both absent. -/
def envC2 : Env :=
  { store := storeC2, storeFail := [], validateResps := [], broadcastResps := [],
    waitStatusResps := [], heightResps := [],
    waitNextHeightResps := [],
    availResps := [Except.ok [("B", false), ("A", false)]], trace := [] }

/-- C2 counterexample: with A and B both pulled out and the availability
map iterated in the order B then A, the worker resets from B's position 1
and returns Recoverable, leaving A's row at position 0 still confirmed —
the earliest pulled-out transaction's position is not the reset point. -/
theorem runWorker_reset_not_earliest :
    (runWorker cfgW 1 envC2 3).1 = WRes.err (.recoverable pulledOutMsg) ∧
    (runWorker cfgW 1 envC2 3).2.store.txs.map TxRow.state =
      [TxState.confirmed, TxState.pending, TxState.pending] := by
  constructor <;> decide

/-- Witness for the amended C2 at the concrete reorg environment. -/
theorem checkTxsAvailability_reset_behavior_witness :
    findUnavailable [("B", false), ("A", false)] = some "B" ∧
    checkTxsAvailability 1 ["A", "B"] envC2 =
      (.err (.recoverable pulledOutMsg),
       { envC2 with availResps := [],
                    store := applyStoreOp envC2.store (.setTxsStateAfter 1 "B" .pending),
                    trace := [Event.store (.setTxsStateAfter 1 "B" .pending) true] }) :=
  ⟨by decide, (checkTxsAvailability_reset_behavior 1 ["A", "B"] [("B", false), ("A", false)]
      [] envC2 "B" rfl rfl (by decide)).1⟩

/-- C3: on an invalid verdict with message m (not the duplicate pattern)
for a well-formed payload with timestamp ts: if the node-reported timestamp
pattern matches m or the local outdated check holds, the worker persists m
only when the row has no error message yet, sets the row's state to error,
and returns NonRecoverable with code 0 carrying the first-persisted
message; if neither holds, it persists m only when unset, consumes
WaitForNextHeight, and retries validation recursively. -/
theorem validateTx_invalid_classification (cfg : WCfg) (tx : TxRow) (env : Env)
    (m : String) (ts : Int) (vrest : List (Except NodeErr (Bool × String)))
    (wrest : List (Except NodeErr Unit)) (fuel : Nat)
    (henv : env.validateResps = Except.ok (false, m) :: vrest)
    (hdup : transactionDuplicateErrorCapture m = none)
    (hts : tx.tx.timestampDecode = some ts)
    (hw : env.waitNextHeightResps = Except.ok () :: wrest)
    (hfail : env.storeFail = []) :
    ((transactionTimestampErrorMatch m = true ∨ cfg.txOutdateTime ≤ cfg.now - ts) →
      ((tx.errorMessage = "" →
         validateTx cfg tx env (fuel + 1) =
           (.err (.nonRecoverable m 0), { tx with errorMessage := m },
            { env with validateResps := vrest,
                       store := applyStoreOp
                         (applyStoreOp env.store (.setTxErrorMessage tx.seqId tx.pos m))
                         (.setTxState tx.seqId tx.pos .error),
                       trace := Event.store (.setTxState tx.seqId tx.pos .error) true ::
                                Event.store (.setTxErrorMessage tx.seqId tx.pos m) true ::
                                env.trace })) ∧
       (tx.errorMessage ≠ "" →
         validateTx cfg tx env (fuel + 1) =
           (.err (.nonRecoverable tx.errorMessage 0), tx,
            { env with validateResps := vrest,
                       store := applyStoreOp env.store (.setTxState tx.seqId tx.pos .error),
                       trace := Event.store (.setTxState tx.seqId tx.pos .error) true ::
                                env.trace })))) ∧
    ((transactionTimestampErrorMatch m = false ∧ cfg.now - ts < cfg.txOutdateTime) →
      ((tx.errorMessage = "" →
         validateTx cfg tx env (fuel + 1) =
           validateTx cfg { tx with errorMessage := m }
             { env with validateResps := vrest, waitNextHeightResps := wrest,
                        store := applyStoreOp env.store (.setTxErrorMessage tx.seqId tx.pos m),
                        trace := Event.store (.setTxErrorMessage tx.seqId tx.pos m) true ::
                                 env.trace } fuel) ∧
       (tx.errorMessage ≠ "" →
         validateTx cfg tx env (fuel + 1) =
           validateTx cfg tx
             { env with validateResps := vrest, waitNextHeightResps := wrest } fuel))) := by
  have htv : takeValidate env = (Except.ok (false, m), { env with validateResps := vrest }) := by
    unfold takeValidate
    rw [henv]
  have hout : isTxOutdated cfg tx.tx =
      Except.ok (decide (cfg.txOutdateTime ≤ cfg.now - ts)) := by
    unfold isTxOutdated
    rw [hts]
  constructor
  · intro hA
    have hcond : (!transactionTimestampErrorMatch m &&
        !decide (cfg.txOutdateTime ≤ cfg.now - ts)) = false := by
      rcases hA with hA | hA
      · simp [hA]
      · simp [hA]
    constructor
    · intro hem
      simp [validateTx, htv, hdup, hout, hem, storeWrite, hfail, hcond]
    · intro hem
      simp [validateTx, htv, hdup, hout, hem, storeWrite, hfail, hcond]
  · rintro ⟨hB1, hB2⟩
    have hcond : (!transactionTimestampErrorMatch m &&
        !decide (cfg.txOutdateTime ≤ cfg.now - ts)) = true := by
      simp [hB1, not_le.mpr hB2]
    constructor
    · intro hem
      simp [validateTx, htv, hdup, hout, hem, storeWrite, hfail, hcond,
            takeWaitNextHeight, hw]
    · intro hem
      simp [validateTx, htv, hdup, hout, hem, storeWrite, hfail, hcond,
            takeWaitNextHeight, hw]

/-- The node-reported timestamp message of the C3 witness. -/
def mTs : String := "Transaction timestamp 12345 is more than 7200000ms"

/-- A processing-state row with a fresh, well-formed payload and no stored
error message. -/
def txC3 : TxRow :=
  { id := "", seqId := 1, state := TxState.processing, height := 0, errorMessage := "",
    pos := 0, tx := { timestampDecode := some 999 }, updatedAt := 0 }

/-- Environment for the C3 witness: the node reports the timestamp
validation error. -/
def envC3 : Env :=
  { store := { seqs := [{ id := 1, state := SeqState.processing, errorMessage := "", errorCode := 0 }],
               txs := [txC3] },
    storeFail := [], validateResps := [Except.ok (false, mTs)], broadcastResps := [],
    waitStatusResps := [], heightResps := [], waitNextHeightResps := [Except.ok ()],
    availResps := [], trace := [] }

/-- Witness for C3: the node-reported timestamp error at a concrete input
persists the message, sets the row to error, and returns NonRecoverable
with code 0. -/
theorem validateTx_invalid_classification_witness :
    transactionTimestampErrorMatch mTs = true ∧
    validateTx cfgW txC3 envC3 1 =
      (.err (.nonRecoverable mTs 0), { txC3 with errorMessage := mTs },
       { envC3 with validateResps := [],
                    store := applyStoreOp
                      (applyStoreOp envC3.store (.setTxErrorMessage 1 0 mTs))
                      (.setTxState 1 0 .error),
                    trace := [Event.store (.setTxState 1 0 .error) true,
                              Event.store (.setTxErrorMessage 1 0 mTs) true] }) :=
  ⟨by decide,
   ((validateTx_invalid_classification cfgW txC3 envC3 mTs 999 [] [] 0
      rfl (by decide) rfl rfl rfl).1 (Or.inl (by decide))).1 rfl⟩

end Broadcaster
